import Mathlib

/-!
Verification development for the libadfir-parser declarative field-dependency
resolution engine (src/__init__.py, src/utils.py).

The Python code is shallowly embedded as executable Lean definitions:
  * `StructureProperty` mirrors `utils.StructureProperty` (fields `idx`,
    `name`, `deps`, `read_only`; the class declares no other attribute).
  * `Value` mirrors the resolved-tree values (`construct.lib.Container`
    map-like nodes, lists, timestamp/scalar leaves).
  * `clean_value` mirrors `BaseParser._clean_value`.
  * `get_property` / `set_property` mirror the descriptor accessors.
  * `parse_structure` / `process_task` mirror `BaseParser.parse_structure`
    (wrapped by the bare `contexted` decorator, i.e. `close = False`) and
    `BaseParser._process_task`.
  * `create_class` mirrors `ParserMeta._create_class`, with descriptors held
    in an explicit store so that the sharing of descriptor objects between a
    base class registry and a subclass registry (and the in-place `idx`
    mutation) is represented faithfully.

Recursion in the Python code (dependency resolution has no cycle guard) is
embedded with an explicit fuel parameter; exhausted fuel maps to Python's
`RecursionError`.
-/

/-- Python exception values that the embedded code can raise. -/
inductive PyError where
  | attributeError (msg : String)
  | valueError (msg : String)
  | oserror (msg : String)
  | recursionError (msg : String)
deriving DecidableEq

/-- The message carried by an exception (`str(e)` in the source). -/
def PyError.msg : PyError → String
  | .attributeError m => m
  | .valueError m => m
  | .oserror m => m
  | .recursionError m => m

/-- Embeds `utils.StructureProperty`: the per-field descriptor with the
author-assigned order index, the field name, the optional dependency list and
the read-only flag.  These four are the only attributes the class defines. -/
structure StructureProperty where
  idx : Int
  name : String
  deps : Option (List String)
  read_only : Bool
deriving DecidableEq

/-- Placeholder descriptor used for out-of-range store reads. -/
def defaultProp : StructureProperty :=
  { idx := 0, name := "", deps := Option.none, read_only := false }

/-- Accessing `prop.dynamic` on a `StructureProperty`.  `utils.StructureProperty`
defines only `idx`, `name`, `deps` and `read_only` (plus methods), so Python
attribute lookup for `dynamic` raises `AttributeError`.  Both
`BaseParser.parse_structure` (dependency loop) and `BaseParser._process_task`
evaluate `prop.dynamic`. -/
def dynamicAttr (_p : StructureProperty) : Except PyError Bool :=
  Except.error (PyError.attributeError "StructureProperty object has no attribute dynamic")

mutual
/-- A resolved-tree value: a `construct.lib.Container` map-like node, a list
node, a timestamp leaf (carrying its `strftime` text form), scalar leaves,
Python `None`, or the `dict(prop=..., err=...)` sentinel built by
`_process_task`. -/
inductive Value where
  | cont (entries : ValueEntries) : Value
  | seq (items : ValueSeq) : Value
  | dt (text : String) : Value
  | str (s : String) : Value
  | int (n : Int) : Value
  | bool (b : Bool) : Value
  | none : Value
  | sentinel (p : StructureProperty) (e : PyError) : Value

/-- Ordered key/value entries of a `Container` node. -/
inductive ValueEntries where
  | nil : ValueEntries
  | cons (k : String) (v : Value) (rest : ValueEntries) : ValueEntries

/-- Ordered items of a list node. -/
inductive ValueSeq where
  | nil : ValueSeq
  | cons (v : Value) (rest : ValueSeq) : ValueSeq
end

/-- A key that `_clean_value` strips: `key.startswith('Raw') or
key.startswith('_')`, modelled as a character-prefix test on the key. -/
def markedKey (k : String) : Bool :=
  "Raw".data.isPrefixOf k.data || "_".data.isPrefixOf k.data

mutual
/-- Embeds `BaseParser._clean_value`: on a `Container`, copies it and removes
every key starting with `Raw` or `_` (without recursing into the dropped
value) while recursing into the kept values; maps itself over lists; turns a
timestamp leaf into its text form when `serialize` is true; leaves every
other value unchanged. -/
def clean_value : Value → Bool → Value
  | Value.cont entries, serialize => Value.cont (cleanEntries entries serialize)
  | Value.seq items, serialize => Value.seq (cleanSeq items serialize)
  | Value.dt text, serialize => if serialize then Value.str text else Value.dt text
  | v, _ => v

/-- The `for key in cleaned_value` loop of `_clean_value` over the copied
container.  The loop deletes marker keys from the container *while iterating
it*: construct 2.8/2.9's `Container` (the line this 2018 code imports)
iterates its live `__keys_order__` list and `__delitem__` removes the key from
that list, so after each deleted key the list shifts left and the iterator's
next step lands one entry further — the entry immediately following a deleted
marker key is never visited: it stays in the container verbatim (not deleted
even if marked, not recursed into).  Rewriting a kept key's value does not
change `__keys_order__`, so kept keys iterate normally.  (Newer construct
versions make `Container` a plain `dict`, where the same loop raises
`RuntimeError`; on either collaborator version the per-key removal the spec
describes does not happen.) -/
def cleanEntries : ValueEntries → Bool → ValueEntries
  | ValueEntries.nil, _ => ValueEntries.nil
  | ValueEntries.cons k v rest, serialize =>
    if markedKey k then
      match rest with
      | ValueEntries.nil => ValueEntries.nil
      | ValueEntries.cons k2 v2 rest2 => ValueEntries.cons k2 v2 (cleanEntries rest2 serialize)
    else ValueEntries.cons k (clean_value v serialize) (cleanEntries rest serialize)

/-- The `list(map(...))` branch of `_clean_value`. -/
def cleanSeq : ValueSeq → Bool → ValueSeq
  | ValueSeq.nil, _ => ValueSeq.nil
  | ValueSeq.cons v rest, serialize =>
    ValueSeq.cons (clean_value v serialize) (cleanSeq rest serialize)
end

mutual
/-- True iff no key at any map depth of the value carries the reserved marker. -/
def valueClean : Value → Bool
  | Value.cont entries => entriesClean entries
  | Value.seq items => seqClean items
  | _ => true

/-- True iff no key of these entries (at any depth) carries the reserved marker. -/
def entriesClean : ValueEntries → Bool
  | ValueEntries.nil => true
  | ValueEntries.cons k v rest => !markedKey k && valueClean v && entriesClean rest

/-- True iff no element of the list (at any depth) carries a marked key. -/
def seqClean : ValueSeq → Bool
  | ValueSeq.nil => true
  | ValueSeq.cons v rest => valueClean v && seqClean rest
end


/-! ## Ordered dictionaries (Python `dict` / `OrderedDict` over string keys) -/

/-- Lookup in an insertion-ordered dictionary. -/
def dictGet {α : Type} : List (String × α) → String → Option α
  | [], _ => Option.none
  | (k0, v) :: rest, k => if k0 = k then Option.some v else dictGet rest k

/-- Assignment `m[k] = v` in an insertion-ordered dictionary: an existing key
keeps its position and gets the new value, a fresh key is appended. -/
def dictSet {α : Type} : List (String × α) → String → α → List (String × α)
  | [], k, v => [(k, v)]
  | (k0, v0) :: rest, k, v =>
    if k0 = k then (k0, v) :: rest else (k0, v0) :: dictSet rest k v

/-! ## The parser instance and its collaborators -/

/-- The stream object backing resolution (`BytesIO` over a byte buffer, or an
opened binary file): we only model its full contents. -/
structure StreamVal where
  data : List Nat
deriving DecidableEq

/-- The byte source of a parser: `ByteParser.source` (an in-memory buffer) or
`FileParser.source` (a path, looked up in a snapshot of the readable files of
the file system; a path that is missing or unreadable is absent from the
snapshot). -/
inductive Source where
  | buf (data : List Nat)
  | file (fs : List (String × List Nat)) (path : String)
deriving DecidableEq

/-- Obtaining a fresh stream from the source: `BytesIO(self.source)` for
`ByteParser.create_stream` (never fails, exact bytes), `open(self.source, 'rb')`
for `FileParser.create_stream` (raises an I/O error when the path is missing
or unreadable). -/
def mkStream : Source → Except PyError StreamVal
  | Source.buf data => Except.ok ⟨data⟩
  | Source.file fs path =>
    match dictGet fs path with
    | Option.some data => Except.ok ⟨data⟩
    | Option.none =>
      Except.error (PyError.oserror ("No such file or directory: " ++ path))

/-- The mutable state of one parser instance: the private backing slots
(attributes named `__<field>`), the stream attribute, the messages written by
`Logger.error`, and a trace of handler invocations with the keyword arguments
they received. -/
structure World where
  slots : List (String × Value)
  stream : Option StreamVal
  log : List String
  calls : List (String × List (String × Value))

/-- Embeds `create_stream(persist)` of both parser subclasses: build the
stream from the source (an I/O failure propagates before anything is stored),
then persist it on the instance iff `persist` is true. -/
def create_stream (src : Source) (persist : Bool) (w : World) :
    World × Except PyError StreamVal :=
  match mkStream src with
  | Except.error e => (w, Except.error e)
  | Except.ok stream =>
    (if persist then { w with stream := Option.some stream } else w, Except.ok stream)

/-- Embeds `BaseParser.__enter__`: when the stream attribute is `None`, call
`create_stream(persist=True)`; otherwise do nothing. -/
def enterCtx (src : Source) (w : World) : World × Except PyError Unit :=
  match w.stream with
  | Option.some _ => (w, Except.ok ())
  | Option.none =>
    match create_stream src true w with
    | (w1, Except.ok _) => (w1, Except.ok ())
    | (w1, Except.error e) => (w1, Except.error e)

/-- Embeds `BaseParser.__exit__`: close and clear the stream when it is set. -/
def exitCtx (w : World) : World :=
  match w.stream with
  | Option.some _ => { w with stream := Option.none }
  | Option.none => w

/-- The backing slot read `getattr(obj, '__<name>')`: the stored value when the
attribute exists, `None` when the slot was never written. -/
def getSlotValue (w : World) (name : String) : Value :=
  match dictGet w.slots ("__" ++ name) with
  | Option.some v => v
  | Option.none => Value.none

/-- A field handler `_parse_<name>`: the external grammar collaborator.  It
receives the active stream and the prepared keyword arguments and produces a
resolved value or raises. -/
def Handler : Type :=
  Option StreamVal → List (String × Value) → Except PyError Value

/-- The per-class data consulted by the engine: the `_PROPERTIES` registry
(insertion-ordered), the handler bound to each field name by the
`_parse_<name>` naming convention (`Option.none` when `hasattr` fails), the
continuation predicate `_parse_continue` (which may itself raise), and the
byte source. -/
structure ParserClass where
  registry : List (String × StructureProperty)
  handlers : String → Option Handler
  parse_continue : String → Value → Except PyError Bool
  src : Source

/-- Registry lookup `self._PROPERTIES.get(name)`. -/
def lookupProp (cls : ParserClass) (k : String) : Option StructureProperty :=
  dictGet cls.registry k

/-- Embeds `StructureProperty.set_property`: raise `AttributeError` when the
descriptor is read-only, otherwise overwrite the backing slot unconditionally. -/
def set_property (p : StructureProperty) (v : Value) (w : World) :
    World × Except PyError Unit :=
  if p.read_only then
    (w, Except.error (PyError.attributeError ("property " ++ p.name ++ " is read-only")))
  else
    ({ w with slots := dictSet w.slots ("__" ++ p.name) v }, Except.ok ())

/-- Embeds the body of `StructureProperty._check_dependencies` for a
non-`None` dependency list: `all([(hasattr(obj, dep) and getattr(obj, dep) is
not None) for dep in self.deps if dep != self.name])`, where both attribute
reads re-enter the dependency's property getter (`readProp`); `hasattr` is
false for an unregistered name and swallows the `AttributeError` of a failing
read, and a successful read must yield a non-`None` value. -/
def check_dependencies (cls : ParserClass)
    (readProp : StructureProperty → Except PyError Value)
    (p : StructureProperty) (ds : List String) : Bool :=
  (ds.filter (fun d => d ≠ p.name)).all (fun d =>
    match lookupProp cls d with
    | Option.none => false
    | Option.some pd =>
      match readProp pd with
      | Except.ok Value.none => false
      | Except.ok _ => true
      | Except.error _ => false)

/-- Embeds `StructureProperty.get_property` together with
`StructureProperty._check_dependencies` (which it calls): raise
`AttributeError` when the descriptor's name is not registered on the class or
when some dependency (other than the field itself) does not resolve to a
non-`None` value; otherwise return the backing slot (or `None` when unset).
The fuel models Python's recursion limit. -/
def get_property (cls : ParserClass) (w : World) :
    Nat → StructureProperty → Except PyError Value
  | 0, _ => Except.error (PyError.recursionError "maximum recursion depth exceeded")
  | Nat.succ fuel, p =>
    if (lookupProp cls p.name).isSome then
      match p.deps with
      | Option.none => Except.ok (getSlotValue w p.name)
      | Option.some ds =>
        match check_dependencies cls (get_property cls w fuel) p ds with
        | true => Except.ok (getSlotValue w p.name)
        | false =>
          Except.error (PyError.attributeError
            ("dependencies not met for property " ++ p.name))
    else
      Except.error (PyError.attributeError
        ("object does not have property " ++ p.name))

/-- The `for kwarg in kwargs` loop of `parse_structure` (lines 263-265): every
key other than the structure being parsed that names a registered field has
its entry overwritten with `getattr(self, kwarg)`, the field's currently
resolved value; an exception from that read propagates. -/
def buildKwargsGo (cls : ParserClass) (struct : String) (w : World) (fuel : Nat) :
    List String → List (String × Value) → Except PyError (List (String × Value))
  | [], acc => Except.ok acc
  | k :: rest, acc =>
    if k = struct then buildKwargsGo cls struct w fuel rest acc
    else
      match lookupProp cls k with
      | Option.none => buildKwargsGo cls struct w fuel rest acc
      | Option.some pk =>
        match get_property cls w fuel pk with
        | Except.error e => Except.error e
        | Except.ok v => buildKwargsGo cls struct w fuel rest (dictSet acc k v)

/-- The tail of `parse_structure` after the dependency loop: prepare the
keyword arguments, then `return getattr(self, parser)(**kwargs)` — the handler
call is recorded in the trace together with the arguments it receives. -/
def finishCall (cls : ParserClass) (struct : String) (handler : Handler)
    (kwargs : List (String × Value)) (w : World) (fuel : Nat) :
    World × Except PyError Value :=
  match buildKwargsGo cls struct w fuel (kwargs.map Prod.fst) kwargs with
  | Except.error e => (w, Except.error e)
  | Except.ok finalKw =>
    ({ w with calls := w.calls ++ [(struct, finalKw)] }, handler w.stream finalKw)

/-- The `for dep in deps` loop of `parse_structure` (lines 248-262):
an unregistered dependency raises `ValueError`; then `prop.dynamic` is read
(see `dynamicAttr`); then, when the dependency's current value is `None`, the
structure is resolved recursively (through `recurse`) and stored through the
descriptor's setter, any failure of either step being wrapped in a
`ValueError`; a dependency that already has a value is skipped. -/
def parseDeps (cls : ParserClass) (recurse : String → World → World × Except PyError Value)
    (struct : String) (fuel : Nat) :
    List String → World → World × Except PyError Unit
  | [], w => (w, Except.ok ())
  | d :: rest, w =>
    match lookupProp cls d with
    | Option.none =>
      (w, Except.error (PyError.valueError
        ("found invalid dependency " ++ d ++ " for structure " ++ struct)))
    | Option.some pd =>
      match dynamicAttr pd with
      | Except.error e => (w, Except.error e)
      | Except.ok dyn =>
        if dyn then
          (w, Except.error (PyError.valueError
            ("found dynamic dependency " ++ d ++ " for structure " ++ struct)))
        else
          match get_property cls w fuel pd with
          | Except.error e => (w, Except.error e)
          | Except.ok Value.none =>
            match recurse d w with
            | (w2, Except.error e) =>
              (w2, Except.error (PyError.valueError
                ("failed to parse dependency " ++ d ++ " of structure " ++ struct
                  ++ " (" ++ e.msg ++ ")")))
            | (w2, Except.ok res) =>
              match set_property pd res w2 with
              | (w3, Except.error e) =>
                (w3, Except.error (PyError.valueError
                  ("failed to parse dependency " ++ d ++ " of structure " ++ struct
                    ++ " (" ++ e.msg ++ ")")))
              | (w3, Except.ok _) => parseDeps cls recurse struct fuel rest w3
          | Except.ok _ => parseDeps cls recurse struct fuel rest w

/-- Embeds `BaseParser.parse_structure` as wrapped by the bare `@contexted`
decorator: `close` is `False`, so the wrapper calls `self.__enter__()` and
never calls `self.__exit__()`.  The body checks that the structure is
registered, that a `_parse_<structure>` handler is bound, resolves the
declared dependencies, rebinds field-shaped keyword arguments and dispatches
to the handler. -/
def parse_structure (cls : ParserClass) (struct : String)
    (kwargs : List (String × Value)) (w : World) :
    Nat → World × Except PyError Value
  | 0 => (w, Except.error (PyError.recursionError "maximum recursion depth exceeded"))
  | Nat.succ fuel =>
    match enterCtx cls.src w with
    | (w1, Except.error e) => (w1, Except.error e)
    | (w1, Except.ok _) =>
      match lookupProp cls struct with
      | Option.none =>
        (w1, Except.error (PyError.valueError (struct ++ " is not a valid structure")))
      | Option.some p =>
        match cls.handlers struct with
        | Option.none =>
          (w1, Except.error (PyError.valueError
            ("no parser implemented for structure " ++ struct)))
        | Option.some handler =>
          match p.deps with
          | Option.none => finishCall cls struct handler kwargs w1 fuel
          | Option.some ds =>
            match parseDeps cls (fun d w2 => parse_structure cls d kwargs w2 fuel)
                struct fuel ds w1 with
            | (w2, Except.error e) => (w2, Except.error e)
            | (w2, Except.ok _) => finishCall cls struct handler kwargs w2 fuel

/-- What a Python function returns to its caller when it does not raise. -/
inductive PyRet where
  | selfRet : PyRet
  | noneRet : PyRet
deriving DecidableEq

/-- The `Logger.error('Failed to parse structure %s (%s)' ...)` call of
`_process_task`. -/
def logFailure (w : World) (p : StructureProperty) (e : PyError) : World :=
  { w with log := w.log ++ ["Failed to parse structure " ++ p.name ++ " (" ++ e.msg ++ ")"] }

/-- The `for prop in self._PROPERTIES.values()` loop of `_process_task`:
read `prop.dynamic` (see `dynamicAttr`); for a non-dynamic field try
`parse_structure` and store the result through the descriptor's setter, on any
failure log it and substitute the `dict(prop=prop, err=e)` sentinel; then ask
`_parse_continue` whether to keep going.  An error returned by this loop is
one escaping to `_process_task`'s outer `try`. -/
def process_task_loop (cls : ParserClass) (fuel : Nat) :
    List (String × StructureProperty) → World → World × Except PyError Unit
  | [], w => (w, Except.ok ())
  | (_, p) :: rest, w =>
    match dynamicAttr p with
    | Except.error e => (w, Except.error e)
    | Except.ok dyn =>
      if dyn then process_task_loop cls fuel rest w
      else
        let step : World × Value :=
          match parse_structure cls p.name [] w fuel with
          | (w1, Except.ok v) =>
            match set_property p v w1 with
            | (w2, Except.ok _) => (w2, v)
            | (w2, Except.error e) => (logFailure w2 p e, Value.sentinel p e)
          | (w1, Except.error e) => (logFailure w1 p e, Value.sentinel p e)
        match cls.parse_continue p.name step.2 with
        | Except.error e => (step.1, Except.error e)
        | Except.ok b =>
          if b then process_task_loop cls fuel rest step.1
          else (step.1, Except.ok ())

/-- Embeds `BaseParser._process_task`: run the loop inside `try ... except:
pass` — on success the method returns `self`, and any exception escaping the
loop is discarded, the method falling through to return `None`.  In either
case nothing is raised to the caller. -/
def process_task (cls : ParserClass) (w : World) (fuel : Nat) : World × PyRet :=
  match process_task_loop cls fuel cls.registry w with
  | (w1, Except.ok _) => (w1, PyRet.selfRet)
  | (w1, Except.error _) => (w1, PyRet.noneRet)

/-! ## The registry builder (`ParserMeta._create_class`)

Descriptor objects are shared: a subclass registry references the very same
`StructureProperty` objects as its base registries, and `_create_class`
assigns `properties.get(prop).idx = current_idx` in place.  To embed this
sharing, descriptors live in a store (a list indexed by position) and
registries map field names to store positions. -/

/-- Read a descriptor from the store (out-of-range reads yield a placeholder,
they never occur under the validity hypotheses used below). -/
def storeGet : List StructureProperty → Nat → StructureProperty
  | [], _ => defaultProp
  | p :: _, 0 => p
  | _ :: rest, Nat.succ n => storeGet rest n

/-- The in-place mutation `descriptor.idx = i` on the store entry `pid`. -/
def storeSetIdx : List StructureProperty → Nat → Int → List StructureProperty
  | [], _, _ => []
  | p :: rest, 0, i => { p with idx := i } :: rest
  | p :: rest, Nat.succ n, i => p :: storeSetIdx rest n i

/-- A value of the class-body `attrs` dictionary that `_create_class` cares
about: a newly declared `StructureProperty` (by store position) or a plain
`property` accessor object (as installed for inherited names). -/
inductive Attr where
  | sprop (pid : Nat) : Attr
  | accessor : Attr
deriving DecidableEq

/-- The state threaded through `_create_class`: the descriptor store, the
class-body `attrs` dictionary, the `_PROPERTIES` ordered dictionary being
built, and `current_idx`. -/
structure MetaState where
  store : List StructureProperty
  attrs : List (String × Attr)
  props : List (String × Nat)
  current : Int
deriving DecidableEq

/-- One iteration of either loop of `_create_class` for the entry
`(name, descriptor)`: `properties[name] = descriptor`,
`properties.get(name).idx = current_idx`, `current_idx += 1`,
`attrs[name] = property(...)`. -/
def inheritStep (st : MetaState) (e : String × Nat) : MetaState :=
  { store := storeSetIdx st.store e.2 st.current,
    attrs := dictSet st.attrs e.1 Attr.accessor,
    props := dictSet st.props e.1 e.2,
    current := st.current + 1 }

/-- The newly declared descriptors among the class-body attributes, in
declaration order: `[(key, value) for key, value in attrs.items() if
isinstance(value, StructureProperty)]`.  Note that this list is built after
the inheritance loop has replaced `attrs[name]` with a `property` object for
every inherited `name`. -/
def sprops : List (String × Attr) → List (String × Nat)
  | [] => []
  | (k, Attr.sprop pid) :: rest => (k, pid) :: sprops rest
  | (_, Attr.accessor) :: rest => sprops rest

/-- Stable insertion (by current author-assigned `idx`) used to model Python's
stable `sorted(..., key=lambda pair: pair[1].idx)`. -/
def insertByIdx (store : List StructureProperty) (e : String × Nat) :
    List (String × Nat) → List (String × Nat)
  | [] => [e]
  | f :: rest =>
    if (storeGet store e.2).idx ≤ (storeGet store f.2).idx then e :: f :: rest
    else f :: insertByIdx store e rest

/-- Stable sort by author-assigned `idx` (equal to Python's stable `sorted`). -/
def sortByIdx (store : List StructureProperty) :
    List (String × Nat) → List (String × Nat)
  | [] => []
  | e :: rest => insertByIdx store e (sortByIdx store rest)

/-- Embeds `ParserMeta._create_class`: start `_PROPERTIES` empty and
`current_idx = 0`; for each base (in order) append its registry entries in
their order, renumbering them and installing accessors into `attrs`; then take
the `StructureProperty` values still present in `attrs`, sort them by their
author-assigned `idx` and process them the same way. -/
def create_class (store0 : List StructureProperty)
    (bases : List (List (String × Nat))) (attrs0 : List (String × Attr)) : MetaState :=
  let st0 : MetaState := ⟨store0, attrs0, [], 0⟩
  let st1 := bases.foldl (fun st base => base.foldl inheritStep st) st0
  let sorted := sortByIdx st1.store (sprops st1.attrs)
  sorted.foldl inheritStep st1

/-! ## Shared lemmas about the stream lifecycle -/

/-- `create_stream` touches nothing but the stream attribute. -/
theorem create_stream_frame (src : Source) (persist : Bool) (w : World) :
    (create_stream src persist w).1.slots = w.slots
    ∧ (create_stream src persist w).1.log = w.log
    ∧ (create_stream src persist w).1.calls = w.calls := by
  cases h : mkStream src <;> cases persist <;> simp [create_stream, h]

/-- `__enter__` touches nothing but the stream attribute. -/
theorem enterCtx_frame (src : Source) (w : World) :
    (enterCtx src w).1.slots = w.slots
    ∧ (enterCtx src w).1.log = w.log
    ∧ (enterCtx src w).1.calls = w.calls := by
  unfold enterCtx
  cases hs : w.stream
  · cases hc : create_stream src true w with
    | mk w1 r =>
      have hf := create_stream_frame src true w
      rw [hc] at hf
      cases r <;> simp_all
  · simp

/-- `__enter__` is a no-op when the stream is already set. -/
theorem enterCtx_of_some (src : Source) (w : World) (sv : StreamVal)
    (h : w.stream = Option.some sv) : enterCtx src w = (w, Except.ok ()) := by
  unfold enterCtx
  rw [h]

/-- When the stream is unset and the source yields a stream, `__enter__`
persists exactly that stream. -/
theorem enterCtx_acquires (src : Source) (w : World) (sv : StreamVal)
    (h1 : w.stream = Option.none) (h2 : mkStream src = Except.ok sv) :
    enterCtx src w = ({ w with stream := Option.some sv }, Except.ok ()) := by
  unfold enterCtx create_stream
  rw [h1, h2]
  simp

/-! ## Concrete parser classes used in the per-claim evaluations -/

/-- The empty instance state: no slot written, stream unset, nothing logged,
no handler invoked. -/
def w0 : World := ⟨[], Option.none, [], []⟩

/-- Field `X` of the spec's `resolveAll` example (no dependencies). -/
def propX : StructureProperty :=
  { idx := 0, name := "X", deps := Option.none, read_only := false }

/-- Field `Y` of the spec's `resolveAll` example (no dependencies). -/
def propY : StructureProperty :=
  { idx := 1, name := "Y", deps := Option.none, read_only := false }

/-- A handler that always fails. -/
def failingHandler : Handler := fun _ _ => Except.error (PyError.valueError "handler failure")

/-- The spec's `resolveAll` example: a parser class with fields `X` and `Y`
whose bound handlers always fail. -/
def clsFailXY : ParserClass :=
  { registry := [("X", propX), ("Y", propY)],
    handlers := fun _ => Option.some failingHandler,
    parse_continue := fun _ _ => Except.ok true,
    src := Source.buf [0, 1] }

/-- Field `A` of the memoization example: no dependencies. -/
def propA : StructureProperty :=
  { idx := 0, name := "A", deps := Option.none, read_only := false }

/-- Field `B` of the memoization example: depends on `A`. -/
def propB : StructureProperty :=
  { idx := 1, name := "B", deps := Option.some ["A"], read_only := false }

/-- Field `C` of the memoization example: depends on `A` and `B`. -/
def propC : StructureProperty :=
  { idx := 2, name := "C", deps := Option.some ["A", "B"], read_only := false }

/-- The memoization example: fields `A`, `B`, `C` with handlers that succeed,
returning the field's name. -/
def clsChainABC : ParserClass :=
  { registry := [("A", propA), ("B", propB), ("C", propC)],
    handlers := fun n => Option.some (fun _ _ => Except.ok (Value.str n)),
    parse_continue := fun _ _ => Except.ok true,
    src := Source.buf [] }

/-- A class with one registered field `hdr` and no handler bound at all. -/
def clsHdrOnly : ParserClass :=
  { registry := [("hdr", { idx := 0, name := "hdr", deps := Option.none, read_only := false })],
    handlers := fun _ => Option.none,
    parse_continue := fun _ _ => Except.ok true,
    src := Source.buf [] }

/-! ## Claim C6 — the sanitizer -/

/-- C6 (divergence witness): the claim says `_clean_value` removes every
marker key at every depth and is idempotent.  But the loop deletes keys from
the copied `Container` while iterating it, so the entry after each deleted
marker key is skipped (see `cleanEntries`): on the map `{RawA: 1, RawB: 2}`
one pass returns `{RawB: 2}` — the marker key `RawB` survives, refuting
removal at every depth — and a second pass returns `{}`, refuting
`sanitize(sanitize(x), s) = sanitize(x, s)`.  The function's own docstring
("recursively removes any key beginning with 'Raw'") promises the claimed
behavior, so the code is the slip. -/
theorem c6_sanitize_misses_key_after_deletion :
    clean_value (Value.cont (ValueEntries.cons "RawA" (Value.int 1)
        (ValueEntries.cons "RawB" (Value.int 2) ValueEntries.nil))) false
      = Value.cont (ValueEntries.cons "RawB" (Value.int 2) ValueEntries.nil)
    ∧ valueClean (clean_value (Value.cont (ValueEntries.cons "RawA" (Value.int 1)
        (ValueEntries.cons "RawB" (Value.int 2) ValueEntries.nil))) false) = false
    ∧ clean_value (clean_value (Value.cont (ValueEntries.cons "RawA" (Value.int 1)
        (ValueEntries.cons "RawB" (Value.int 2) ValueEntries.nil))) false) false
      = Value.cont ValueEntries.nil
    ∧ Value.cont (ValueEntries.cons "RawB" (Value.int 2) ValueEntries.nil)
      ≠ Value.cont ValueEntries.nil := by
  refine ⟨rfl, rfl, rfl, ?_⟩
  intro h
  injection h with h1
  exact ValueEntries.noConfusion h1

/-! ## Claim C7 — read-only descriptors -/

/-- C7: for every descriptor whose `read_only` flag is true, and every
instance state and value, `set_property` raises `AttributeError` and leaves
the backing slot untouched: the value observable before the attempted write is
still observable after it. -/
theorem c7_read_only_write_fails (p : StructureProperty) (v : Value) (w : World)
    (h : p.read_only = true) :
    set_property p v w =
      (w, Except.error (PyError.attributeError ("property " ++ p.name ++ " is read-only")))
    ∧ (set_property p v w).1.slots = w.slots
    ∧ getSlotValue (set_property p v w).1 p.name = getSlotValue w p.name := by
  refine ⟨?_, ?_, ?_⟩ <;> simp [set_property, h]

/-- A concrete read-only descriptor for the C7 witness. -/
def roProp : StructureProperty :=
  { idx := 0, name := "hdr", deps := Option.none, read_only := true }

/-- A concrete instance state whose `hdr` slot already holds a value. -/
def wHdr : World := ⟨[("__hdr", Value.int 1)], Option.none, [], []⟩

/-- Witness for C7 at a concrete read-only descriptor and a populated slot. -/
theorem c7_read_only_write_fails_witness :
    roProp.read_only = true
    ∧ (set_property roProp (Value.int 3) wHdr =
        (wHdr, Except.error (PyError.attributeError ("property " ++ roProp.name ++ " is read-only")))
      ∧ (set_property roProp (Value.int 3) wHdr).1.slots = wHdr.slots
      ∧ getSlotValue (set_property roProp (Value.int 3) wHdr).1 roProp.name
          = getSlotValue wHdr roProp.name) :=
  ⟨rfl, c7_read_only_write_fails roProp (Value.int 3) wHdr rfl⟩

/-! ## Claim C8 — the two sources -/

/-- C8: a byte-buffer source always yields a stream whose full contents are
exactly the constructor bytes (including the empty buffer) and never fails; a
file source whose path is missing or unreadable fails with an I/O error and,
when the stream attribute was unset, leaves it unset (nothing is persisted). -/
theorem c8_byte_and_file_sources (data : List Nat) (persist : Bool) (w : World)
    (fs : List (String × List Nat)) (path : String) :
    (create_stream (Source.buf data) persist w).2 = Except.ok ⟨data⟩
    ∧ (dictGet fs path = Option.none → w.stream = Option.none →
        create_stream (Source.file fs path) persist w =
          (w, Except.error (PyError.oserror ("No such file or directory: " ++ path)))
        ∧ (create_stream (Source.file fs path) persist w).1.stream = Option.none) := by
  constructor
  · simp [create_stream, mkStream]
  · intro h1 h2
    constructor <;> simp [create_stream, mkStream, h1, h2]

/-- Witness for C8: a two-byte buffer succeeds with exactly those bytes, and a
missing path on an empty file system fails leaving the stream unset. -/
theorem c8_byte_and_file_sources_witness :
    (dictGet ([] : List (String × List Nat)) "missing.bin" = Option.none
      ∧ w0.stream = Option.none)
    ∧ ((create_stream (Source.buf [7, 8]) true w0).2 = Except.ok ⟨[7, 8]⟩
      ∧ (create_stream (Source.file [] "missing.bin") false w0 =
          (w0, Except.error (PyError.oserror ("No such file or directory: " ++ "missing.bin")))
        ∧ (create_stream (Source.file [] "missing.bin") false w0).1.stream = Option.none)) :=
  ⟨⟨rfl, rfl⟩,
    (c8_byte_and_file_sources [7, 8] true w0 [] "missing.bin").1,
    (c8_byte_and_file_sources [7, 8] false w0 [] "missing.bin").2 rfl rfl⟩

/-! ## Claim C2 — the full-registry run -/

/-- C2 (divergence witness): on the spec's own example — fields `X` and `Y`
whose handlers always fail — `_process_task` indeed raises nothing to its
caller, but not for the claimed reason: the loop evaluates `prop.dynamic`,
which raises `AttributeError` on the first field because `StructureProperty`
defines no such attribute; the bare `except: pass` swallows it and the method
returns `None`.  No field is attempted, nothing is logged, no sentinel ever
reaches `_parse_continue`, and the backing slots stay unset — contradicting
the claimed per-field log-and-sentinel behavior. -/
theorem c2_process_task_swallows_dynamic_attribute_error :
    process_task clsFailXY w0 9 = (w0, PyRet.noneRet)
    ∧ (process_task clsFailXY w0 9).1.log = []
    ∧ (process_task clsFailXY w0 9).1.slots = [] :=
  ⟨rfl, rfl, rfl⟩

/-! ## Claim C3 — memoized dependency resolution -/

/-- C3 (divergence witness): resolving `C` (deps `[A, B]`) never reaches any
handler: the dependency loop of `parse_structure` evaluates `prop.dynamic` for
dependency `A` before anything else, and `StructureProperty` has no `dynamic`
attribute, so the call raises `AttributeError` with zero handler invocations
(`calls = []`) instead of resolving `A` and `B` once each. -/
theorem c3_dependency_loop_crashes_before_any_handler :
    parse_structure clsChainABC "C" [] w0 9 =
      ({ w0 with stream := Option.some ⟨[]⟩ },
        Except.error (PyError.attributeError "StructureProperty object has no attribute dynamic"))
    ∧ (parse_structure clsChainABC "C" [] w0 9).1.calls = [] :=
  ⟨rfl, rfl⟩

/-! ## Claim C4 — unknown field / unbound handler -/

/-- C4: `parse_structure` on a name absent from `_PROPERTIES` raises
`ValueError` ("... is not a valid structure"); on a registered name with no
`_parse_<name>` handler bound it raises `ValueError` ("no parser implemented
..."); both checks happen before the dependency loop, so no dependency handler
runs and no slot is written in either failure case (the hypothesis states that
stream acquisition, which the `contexted` wrapper performs first, succeeds). -/
theorem c4_checks_precede_dependency_resolution (cls : ParserClass) (w : World)
    (struct : String) (kwargs : List (String × Value)) (fuel : Nat)
    (henter : (enterCtx cls.src w).2 = Except.ok ()) :
    (lookupProp cls struct = Option.none →
      parse_structure cls struct kwargs w (fuel + 1) =
        ((enterCtx cls.src w).1,
          Except.error (PyError.valueError (struct ++ " is not a valid structure")))
      ∧ (parse_structure cls struct kwargs w (fuel + 1)).1.calls = w.calls
      ∧ (parse_structure cls struct kwargs w (fuel + 1)).1.slots = w.slots)
    ∧ (∀ p, lookupProp cls struct = Option.some p → cls.handlers struct = Option.none →
      parse_structure cls struct kwargs w (fuel + 1) =
        ((enterCtx cls.src w).1,
          Except.error (PyError.valueError ("no parser implemented for structure " ++ struct)))
      ∧ (parse_structure cls struct kwargs w (fuel + 1)).1.calls = w.calls
      ∧ (parse_structure cls struct kwargs w (fuel + 1)).1.slots = w.slots) := by
  have hframe := enterCtx_frame cls.src w
  rcases he : enterCtx cls.src w with ⟨w1, r⟩
  rw [he] at henter hframe
  simp only at henter hframe
  subst henter
  constructor
  · intro hnone
    have hps : parse_structure cls struct kwargs w (fuel + 1) =
        (w1, Except.error (PyError.valueError (struct ++ " is not a valid structure"))) := by
      unfold parse_structure
      rw [he, hnone]
    rw [hps]
    exact ⟨rfl, hframe.2.2, hframe.1⟩
  · intro p hp hh
    have hps : parse_structure cls struct kwargs w (fuel + 1) =
        (w1, Except.error (PyError.valueError
          ("no parser implemented for structure " ++ struct))) := by
      unfold parse_structure
      rw [he, hp, hh]
    rw [hps]
    exact ⟨rfl, hframe.2.2, hframe.1⟩

/-- Witness for C4 on `clsHdrOnly`: the unregistered name `zzz` and the
registered-but-unbound name `hdr`. -/
theorem c4_checks_precede_dependency_resolution_witness :
    ((enterCtx clsHdrOnly.src w0).2 = Except.ok ()
      ∧ lookupProp clsHdrOnly "zzz" = Option.none
      ∧ lookupProp clsHdrOnly "hdr" =
          Option.some { idx := 0, name := "hdr", deps := Option.none, read_only := false }
      ∧ clsHdrOnly.handlers "hdr" = Option.none)
    ∧ (parse_structure clsHdrOnly "zzz" [] w0 4 =
        ((enterCtx clsHdrOnly.src w0).1,
          Except.error (PyError.valueError ("zzz" ++ " is not a valid structure")))
      ∧ (parse_structure clsHdrOnly "zzz" [] w0 4).1.calls = w0.calls
      ∧ (parse_structure clsHdrOnly "zzz" [] w0 4).1.slots = w0.slots)
    ∧ (parse_structure clsHdrOnly "hdr" [] w0 4 =
        ((enterCtx clsHdrOnly.src w0).1,
          Except.error (PyError.valueError ("no parser implemented for structure " ++ "hdr")))
      ∧ (parse_structure clsHdrOnly "hdr" [] w0 4).1.calls = w0.calls
      ∧ (parse_structure clsHdrOnly "hdr" [] w0 4).1.slots = w0.slots) :=
  ⟨⟨rfl, rfl, rfl, rfl⟩,
    (c4_checks_precede_dependency_resolution clsHdrOnly w0 "zzz" [] 3 rfl).1 rfl,
    (c4_checks_precede_dependency_resolution clsHdrOnly w0 "hdr" [] 3 rfl).2
      { idx := 0, name := "hdr", deps := Option.none, read_only := false } rfl rfl⟩

/-! ## Claim C10 — single-field resolution never releases the stream -/

/-- `set_property` never touches the stream attribute. -/
theorem set_property_stream (p : StructureProperty) (v : Value) (w : World) :
    ((set_property p v w).1).stream = w.stream := by
  unfold set_property
  split <;> rfl

/-- `finishCall` never touches the stream attribute. -/
theorem finishCall_stream (cls : ParserClass) (struct : String) (handler : Handler)
    (kwargs : List (String × Value)) (w : World) (fuel : Nat) :
    ((finishCall cls struct handler kwargs w fuel).1).stream = w.stream := by
  unfold finishCall
  cases buildKwargsGo cls struct w fuel (kwargs.map Prod.fst) kwargs <;> rfl

/-- The dependency loop never changes the stream attribute (under the source
as written it stops at the `prop.dynamic` read on its first entry). -/
theorem parseDeps_stream (cls : ParserClass)
    (recurse : String → World → World × Except PyError Value)
    (struct : String) (fuel : Nat) (ds : List String) (w : World) :
    ((parseDeps cls recurse struct fuel ds w).1).stream = w.stream := by
  cases ds with
  | nil => rfl
  | cons d rest =>
    unfold parseDeps
    cases lookupProp cls d <;> simp [dynamicAttr]

/-- An open stream survives a `parse_structure` call unchanged: the wrapper
(`close = False`) never calls `__exit__`, and nothing in the body clears the
stream attribute. -/
theorem parse_structure_keeps_stream (cls : ParserClass) (sv : StreamVal) :
    ∀ (fuel : Nat) (struct : String) (kwargs : List (String × Value)) (w : World),
      w.stream = Option.some sv →
      ((parse_structure cls struct kwargs w fuel).1).stream = Option.some sv := by
  intro fuel
  cases fuel with
  | zero => intro struct kwargs w h; simpa [parse_structure] using h
  | succ n =>
    intro struct kwargs w h
    unfold parse_structure
    rw [enterCtx_of_some cls.src w sv h]
    cases hlp : lookupProp cls struct with
    | none => simpa using h
    | some p =>
      cases hh : cls.handlers struct with
      | none => simpa using h
      | some handler =>
        cases hd : p.deps with
        | none => simpa [hd, finishCall_stream] using h
        | some ds =>
          rcases hpd : parseDeps cls (fun d w2 => parse_structure cls d kwargs w2 n)
              struct n ds w with ⟨w2, r⟩
          have h2 : w2.stream = Option.some sv := by
            have hres := parseDeps_stream cls
              (fun d w2 => parse_structure cls d kwargs w2 n) struct n ds w
            rw [hpd] at hres
            simpa [h] using hres
          cases r <;> simpa [hd, hpd, finishCall_stream] using h2

/-- C10: for an instance whose stream is unset (and whose source yields a
stream), a `parse_structure` call first acquires the stream through the
context-manager entry installed by the bare `contexted` decorator
(`close = False`), and leaves that stream open and persisted on the instance
when it returns: single-field resolution never releases the stream it
acquired. -/
theorem c10_parse_structure_persists_stream (cls : ParserClass) (w : World)
    (struct : String) (kwargs : List (String × Value)) (fuel : Nat) (sv : StreamVal)
    (h1 : w.stream = Option.none) (h2 : mkStream cls.src = Except.ok sv) :
    enterCtx cls.src w = ({ w with stream := Option.some sv }, Except.ok ())
    ∧ ((parse_structure cls struct kwargs w (fuel + 1)).1).stream = Option.some sv := by
  have hacq := enterCtx_acquires cls.src w sv h1 h2
  refine ⟨hacq, ?_⟩
  have hshift : parse_structure cls struct kwargs w (fuel + 1) =
      parse_structure cls struct kwargs { w with stream := Option.some sv } (fuel + 1) := by
    conv_lhs => unfold parse_structure
    conv_rhs => unfold parse_structure
    rw [hacq, enterCtx_of_some cls.src { w with stream := Option.some sv } sv rfl]
  rw [hshift]
  exact parse_structure_keeps_stream cls sv (fuel + 1) struct kwargs _ rfl

/-- Witness for C10: resolving the unknown name `zzz` on `clsHdrOnly` from an
unset stream still acquires and keeps the byte stream. -/
theorem c10_parse_structure_persists_stream_witness :
    (w0.stream = Option.none ∧ mkStream clsHdrOnly.src = Except.ok ⟨[]⟩)
    ∧ (enterCtx clsHdrOnly.src w0 = ({ w0 with stream := Option.some ⟨[]⟩ }, Except.ok ())
      ∧ ((parse_structure clsHdrOnly "zzz" [] w0 6).1).stream = Option.some ⟨[]⟩) :=
  ⟨⟨rfl, rfl⟩, c10_parse_structure_persists_stream clsHdrOnly w0 "zzz" [] 5 ⟨[]⟩ rfl rfl⟩

/-! ## Claim C5 — rebinding of field-shaped keyword arguments -/

/-- A field `x` with a bound handler, used to exercise the kwargs loop. -/
def kwProp : StructureProperty :=
  { idx := 0, name := "x", deps := Option.none, read_only := false }

/-- A class with the single field `x` and a handler for it. -/
def clsKw : ParserClass :=
  { registry := [("x", kwProp)],
    handlers := fun _ => Option.some (fun _ kw => Except.ok (Value.int kw.length)),
    parse_continue := fun _ _ => Except.ok true,
    src := Source.buf [] }

/-- C5 counterexample: the kwargs loop guard is
`if kwarg != structure and kwarg in self._PROPERTIES`, so a caller-supplied
override keyed by the *resolved field's own name* — which certainly names a
registered field — is NOT replaced by the field's current resolved value
(`None` here, the slot being unset): the handler receives the caller's
`Value.int 7` unchanged, refuting "every key ... that also names a registered
field has its entry replaced". -/
theorem c5_self_named_key_not_replaced :
    (parse_structure clsKw "x" [("x", Value.int 7)] w0 5).1.calls
      = [("x", [("x", Value.int 7)])]
    ∧ getSlotValue w0 "x" = Value.none
    ∧ Value.int 7 ≠ Value.none :=
  ⟨rfl, rfl, fun h => Value.noConfusion h⟩

/-- The kwargs transformation that `parse_structure` actually applies (spec
side of the amended claim): every key other than the structure's own name that
names a registered field is rebound to the field's currently resolved value
(its backing slot, or `None` when unset); all other entries pass through. -/
def transKw (cls : ParserClass) (w : World) (struct : String)
    (kwargs : List (String × Value)) : List (String × Value) :=
  kwargs.map (fun e =>
    if e.1 ≠ struct ∧ (lookupProp cls e.1).isSome then (e.1, getSlotValue w e.1) else e)

/-- A dependency-free registered descriptor reads as its backing slot. -/
theorem get_property_no_deps (cls : ParserClass) (w : World) (fuel : Nat)
    (pk : StructureProperty) (hname : (lookupProp cls pk.name).isSome)
    (hdeps : pk.deps = Option.none) :
    get_property cls w (fuel + 1) pk = Except.ok (getSlotValue w pk.name) := by
  unfold get_property
  rw [if_pos hname, hdeps]

/-- Whenever the property read succeeds, the value it returns is the backing
slot (or `None` when unset): both success paths of `get_property` return
`getattr(obj, '__<name>')`. -/
theorem get_property_ok_slot (cls : ParserClass) (w : World) (fuel : Nat)
    (p : StructureProperty) (v : Value)
    (h : get_property cls w (fuel + 1) p = Except.ok v) :
    v = getSlotValue w p.name := by
  unfold get_property at h
  by_cases hname : (lookupProp cls p.name).isSome
  · rw [if_pos hname] at h
    cases hd : p.deps with
    | none =>
      rw [hd] at h
      exact (Except.ok.inj h).symm
    | some ds =>
      rw [hd] at h
      have h2 : (match check_dependencies cls (get_property cls w fuel) p ds with
          | true => Except.ok (getSlotValue w p.name)
          | false => Except.error (PyError.attributeError
              ("dependencies not met for property " ++ p.name))) = Except.ok v := h
      cases hb : check_dependencies cls (get_property cls w fuel) p ds with
      | true =>
        rw [hb] at h2
        exact (Except.ok.inj h2).symm
      | false =>
        rw [hb] at h2
        cases h2
  · rw [if_neg hname] at h
    cases h

/-- The kwargs loop, characterized as a left fold of in-place updates, under
the hypothesis that every registered key among the processed keys (other than
the resolved structure) is named after its key and that its property read
succeeds. -/
theorem buildKwargsGo_eq (cls : ParserClass) (struct : String) (w : World) (fuel : Nat) :
    ∀ (ks : List String) (acc : List (String × Value)),
    (∀ k ∈ ks, k ≠ struct → ∀ pk, lookupProp cls k = Option.some pk →
        pk.name = k ∧ ∃ v, get_property cls w (fuel + 1) pk = Except.ok v) →
    buildKwargsGo cls struct w (fuel + 1) ks acc =
      Except.ok (ks.foldl (fun a k =>
        if k = struct then a
        else
          match lookupProp cls k with
          | Option.none => a
          | Option.some _ => dictSet a k (getSlotValue w k)) acc) := by
  intro ks
  induction ks with
  | nil => intro acc _; rfl
  | cons k rest ih =>
    intro acc hks
    by_cases hs : k = struct
    · simp only [buildKwargsGo, if_pos hs, List.foldl_cons]
      rw [ih acc (fun k2 hk2 => hks k2 (List.mem_cons_of_mem k hk2))]
    · cases hlp : lookupProp cls k with
      | none =>
        simp only [buildKwargsGo, if_neg hs, hlp, List.foldl_cons]
        rw [ih acc (fun k2 hk2 => hks k2 (List.mem_cons_of_mem k hk2))]
      | some pk =>
        obtain ⟨hn, v, hv⟩ := hks k (List.mem_cons_self k rest) hs pk hlp
        have hvs : v = getSlotValue w pk.name := get_property_ok_slot cls w fuel pk v hv
        simp only [buildKwargsGo, if_neg hs, hlp, hv, List.foldl_cons, hvs, hn]
        rw [ih (dictSet acc k (getSlotValue w k))
          (fun k2 hk2 => hks k2 (List.mem_cons_of_mem k hk2))]

/-- Updates keyed off a list that avoids `k` leave a front entry with key `k`
in place. -/
theorem foldl_upd_cons_ne (cls : ParserClass) (struct : String) (w : World)
    (k : String) (v : Value) :
    ∀ (ks : List String) (rest : List (String × Value)), k ∉ ks →
    ks.foldl (fun a k2 =>
        if k2 = struct then a
        else
          match lookupProp cls k2 with
          | Option.none => a
          | Option.some _ => dictSet a k2 (getSlotValue w k2)) ((k, v) :: rest)
      = (k, v) :: ks.foldl (fun a k2 =>
        if k2 = struct then a
        else
          match lookupProp cls k2 with
          | Option.none => a
          | Option.some _ => dictSet a k2 (getSlotValue w k2)) rest := by
  intro ks
  induction ks with
  | nil => intro rest _; rfl
  | cons k2 ks2 ih =>
    intro rest hk
    have hne : k ≠ k2 := fun h => hk (h ▸ List.mem_cons_self k2 ks2)
    have hk2 : k ∉ ks2 := fun h => hk (List.mem_cons_of_mem k2 h)
    by_cases hs : k2 = struct
    · simp only [List.foldl_cons, if_pos hs]
      exact ih rest hk2
    · cases hlp : lookupProp cls k2 with
      | none =>
        simp only [List.foldl_cons, if_neg hs, hlp]
        exact ih rest hk2
      | some pk =>
        simp only [List.foldl_cons, if_neg hs, hlp, dictSet, if_neg hne]
        exact ih (dictSet rest k2 (getSlotValue w k2)) hk2

/-- Folding the in-place updates over the dictionary's own (duplicate-free)
key list is the per-entry rebinding `transKw`. -/
theorem foldl_upd_eq_transKw (cls : ParserClass) (struct : String) (w : World) :
    ∀ (kwargs : List (String × Value)), (kwargs.map Prod.fst).Nodup →
    (kwargs.map Prod.fst).foldl (fun a k =>
        if k = struct then a
        else
          match lookupProp cls k with
          | Option.none => a
          | Option.some _ => dictSet a k (getSlotValue w k)) kwargs
      = transKw cls w struct kwargs := by
  intro kwargs
  induction kwargs with
  | nil => intro _; rfl
  | cons e rest ih =>
    intro hnd
    obtain ⟨k, v⟩ := e
    simp only [List.map_cons, List.nodup_cons] at hnd
    obtain ⟨hk, hrest⟩ := hnd
    simp only [List.map_cons, List.foldl_cons]
    by_cases hs : k = struct
    · rw [if_pos hs, foldl_upd_cons_ne cls struct w k v _ _ hk, ih hrest]
      simp [transKw, hs]
    · cases hlp : lookupProp cls k with
      | none =>
        simp only [if_neg hs, hlp]
        rw [foldl_upd_cons_ne cls struct w k v _ _ hk, ih hrest]
        simp [transKw, hs, hlp]
      | some pk =>
        have hset : dictSet ((k, v) :: rest) k (getSlotValue w k)
            = (k, getSlotValue w k) :: rest := by
          simp [dictSet]
        simp only [if_neg hs, hlp, hset]
        rw [foldl_upd_cons_ne cls struct w k (getSlotValue w k) _ _ hk, ih hrest]
        simp [transKw, hs, hlp]

/-- C5 (amended): the kwargs-rebinding stage runs only when the resolved
field declares no dependencies — with a non-empty dependency list the
dependency loop raises first (`StructureProperty` has no `dynamic` attribute;
see the C3 evidence).  When it runs, every key of the caller-supplied
overrides *other than the resolved field's own name* that also names a
registered field has its entry replaced by the field's property read
`getattr(self, kwarg)`: when every such read succeeds each entry becomes that
field's current resolved value (its backing slot, `None` when unset),
discarding the caller's value, the resolved field's own name and keys naming
no registered field pass through unchanged, and the handler receives exactly
`transKw` (first conjunct); when the rebinding loop raises instead — e.g. a
registered key whose field has unmet dependencies makes `get_property` raise
`AttributeError` — that error propagates out of `parse_structure` and the
handler is never invoked (second conjunct). -/
theorem c5_field_shaped_kwargs_rebound (cls : ParserClass) (w : World)
    (struct : String) (kwargs : List (String × Value)) (fuel : Nat)
    (p : StructureProperty) (handler : Handler)
    (henter : (enterCtx cls.src w).2 = Except.ok ())
    (hp : lookupProp cls struct = Option.some p)
    (hdeps : p.deps = Option.none)
    (hh : cls.handlers struct = Option.some handler) :
    (((kwargs.map Prod.fst).Nodup →
      (∀ k ∈ kwargs.map Prod.fst, k ≠ struct → ∀ pk, lookupProp cls k = Option.some pk →
          pk.name = k
          ∧ ∃ v, get_property cls (enterCtx cls.src w).1 (fuel + 1) pk = Except.ok v) →
      parse_structure cls struct kwargs w (fuel + 2) =
        ({ (enterCtx cls.src w).1 with
            calls := (enterCtx cls.src w).1.calls
              ++ [(struct, transKw cls (enterCtx cls.src w).1 struct kwargs)] },
          handler ((enterCtx cls.src w).1).stream
            (transKw cls (enterCtx cls.src w).1 struct kwargs)))
    ∧ (∀ e : PyError,
        buildKwargsGo cls struct (enterCtx cls.src w).1 (fuel + 1)
            (kwargs.map Prod.fst) kwargs = Except.error e →
        parse_structure cls struct kwargs w (fuel + 2)
          = ((enterCtx cls.src w).1, Except.error e)
        ∧ ((enterCtx cls.src w).1).calls = w.calls)) := by
  have hframe := enterCtx_frame cls.src w
  rcases he : enterCtx cls.src w with ⟨w1, r⟩
  rw [he] at henter hframe
  simp only at henter hframe
  subst henter
  have hbody : parse_structure cls struct kwargs w (fuel + 2) =
      finishCall cls struct handler kwargs w1 (fuel + 1) := by
    unfold parse_structure
    rw [he]
    simp only [hp, hh, hdeps]
  constructor
  · intro hkeys hkw
    rw [hbody]
    unfold finishCall
    rw [buildKwargsGo_eq cls struct w1 fuel (kwargs.map Prod.fst) kwargs hkw,
      foldl_upd_eq_transKw cls struct w1 kwargs hkeys]
  · intro e hfail
    rw [hbody]
    unfold finishCall
    rw [hfail]
    exact ⟨rfl, hframe.2.2⟩

/-- Field `y`, dependency-free, used as a registered kwarg key. -/
def propYkw : StructureProperty :=
  { idx := 1, name := "y", deps := Option.none, read_only := false }

/-- A class with fields `x` and `y` and a handler bound to every field. -/
def clsPair : ParserClass :=
  { registry := [("x", kwProp), ("y", propYkw)],
    handlers := fun _ => Option.some (fun _ _ => Except.ok Value.none),
    parse_continue := fun _ _ => Except.ok true,
    src := Source.buf [] }

/-- An instance state whose `y` slot holds 42 and whose stream is unset. -/
def wSlotY : World := ⟨[("__y", Value.int 42)], Option.none, [], []⟩

/-- Field `F`, declaring a dependency on `G`. -/
def propFdep : StructureProperty :=
  { idx := 1, name := "F", deps := Option.some ["G"], read_only := false }

/-- Field `G`, dependency-free. -/
def propGdep : StructureProperty :=
  { idx := 2, name := "G", deps := Option.none, read_only := false }

/-- A class with the dependency-free field `x` plus `F` (deps `[G]`) and `G`,
every field having a bound handler. -/
def clsDep : ParserClass :=
  { registry := [("x", kwProp), ("F", propFdep), ("G", propGdep)],
    handlers := fun _ => Option.some (fun _ _ => Except.ok Value.none),
    parse_continue := fun _ _ => Except.ok true,
    src := Source.buf [] }

/-- Witness for the amended C5, both conjuncts: resolving `x` on `clsPair`
with kwargs `y := 7, z := 9` (slot `y` holding 42) hands the handler `y := 42`
and `z := 9`; and resolving `x` on `clsDep` with kwargs `F := 7`, where `F`
depends on the unset `G`, raises `AttributeError` ("dependencies not met for
property F") without invoking the handler. -/
theorem c5_field_shaped_kwargs_rebound_witness :
    ((enterCtx clsPair.src wSlotY).2 = Except.ok ()
      ∧ lookupProp clsPair "x" = Option.some kwProp
      ∧ kwProp.deps = Option.none
      ∧ ([("y", Value.int 7), ("z", Value.int 9)].map
          (Prod.fst (α := String) (β := Value))).Nodup
      ∧ transKw clsPair (enterCtx clsPair.src wSlotY).1 "x"
          [("y", Value.int 7), ("z", Value.int 9)]
          = [("y", Value.int 42), ("z", Value.int 9)])
    ∧ parse_structure clsPair "x" [("y", Value.int 7), ("z", Value.int 9)] wSlotY 5 =
        ({ (enterCtx clsPair.src wSlotY).1 with
            calls := (enterCtx clsPair.src wSlotY).1.calls
              ++ [("x", transKw clsPair (enterCtx clsPair.src wSlotY).1 "x"
                    [("y", Value.int 7), ("z", Value.int 9)])] },
          (fun _ _ => Except.ok Value.none : Handler)
            ((enterCtx clsPair.src wSlotY).1).stream
            (transKw clsPair (enterCtx clsPair.src wSlotY).1 "x"
              [("y", Value.int 7), ("z", Value.int 9)]))
    ∧ (lookupProp clsDep "F" = Option.some propFdep
      ∧ propFdep.deps = Option.some ["G"]
      ∧ getSlotValue (enterCtx clsDep.src w0).1 "G" = Value.none
      ∧ buildKwargsGo clsDep "x" (enterCtx clsDep.src w0).1 4
          ([("F", Value.int 7)].map (Prod.fst (α := String) (β := Value)))
          [("F", Value.int 7)]
          = Except.error (PyError.attributeError "dependencies not met for property F"))
    ∧ (parse_structure clsDep "x" [("F", Value.int 7)] w0 5
        = ((enterCtx clsDep.src w0).1,
            Except.error (PyError.attributeError "dependencies not met for property F"))
      ∧ ((enterCtx clsDep.src w0).1).calls = w0.calls) :=
  ⟨⟨rfl, rfl, rfl, by decide, rfl⟩,
    (c5_field_shaped_kwargs_rebound clsPair wSlotY "x"
        [("y", Value.int 7), ("z", Value.int 9)] 3 kwProp
        (fun _ _ => Except.ok Value.none) rfl rfl rfl rfl).1 (by decide)
      (by
        intro k hk pk hpk hkreg
        simp only [List.map_cons, List.map_nil, List.mem_cons, List.mem_singleton] at hk
        rcases hk with rfl | hk
        · rw [show lookupProp clsPair "y" = Option.some propYkw from rfl] at hkreg
          cases hkreg
          exact ⟨rfl, Value.int 42, rfl⟩
        · rcases hk with rfl | hk
          · rw [show lookupProp clsPair "z" = Option.none from rfl] at hkreg
            cases hkreg
          · cases hk),
    ⟨rfl, rfl, rfl, rfl⟩,
    (c5_field_shaped_kwargs_rebound clsDep w0 "x" [("F", Value.int 7)] 3 kwProp
        (fun _ _ => Except.ok Value.none) rfl rfl rfl rfl).2
      (PyError.attributeError "dependencies not met for property F") rfl⟩

/-! ## Lemmas about the descriptor store and ordered dictionaries -/

/-- Setting an `idx` does not change the store length. -/
theorem storeSetIdx_length (s : List StructureProperty) :
    ∀ (n : Nat) (i : Int), (storeSetIdx s n i).length = s.length := by
  induction s with
  | nil => intro n i; rfl
  | cons p rest ih =>
    intro n i
    cases n with
    | zero => rfl
    | succ m => simpa [storeSetIdx] using ih m i

/-- Reading back the position just written. -/
theorem storeGet_storeSetIdx_self (s : List StructureProperty) :
    ∀ (n : Nat) (i : Int), n < s.length →
      storeGet (storeSetIdx s n i) n = { storeGet s n with idx := i } := by
  induction s with
  | nil => intro n i h; cases h
  | cons p rest ih =>
    intro n i h
    cases n with
    | zero => rfl
    | succ m => simpa [storeSetIdx, storeGet] using ih m i (Nat.lt_of_succ_lt_succ h)

/-- Reading a different position is unaffected by a write. -/
theorem storeGet_storeSetIdx_ne (s : List StructureProperty) :
    ∀ (n m : Nat) (i : Int), m ≠ n → storeGet (storeSetIdx s n i) m = storeGet s m := by
  induction s with
  | nil => intro n m i _; cases n <;> rfl
  | cons p rest ih =>
    intro n m i h
    cases n with
    | zero => cases m with
      | zero => exact absurd rfl h
      | succ m2 => rfl
    | succ n2 => cases m with
      | zero => rfl
      | succ m2 =>
        simpa [storeSetIdx, storeGet] using ih n2 m2 i (fun hc => h (by rw [hc]))

/-- A key is absent from an ordered dictionary iff `dictGet` yields nothing. -/
theorem dictGet_eq_none_iff {α : Type} (m : List (String × α)) (k : String) :
    dictGet m k = Option.none ↔ k ∉ m.map Prod.fst := by
  induction m with
  | nil => simp [dictGet]
  | cons e rest ih =>
    by_cases h : e.1 = k
    · simp [dictGet, h]
    · rw [dictGet, if_neg h, ih]
      simp only [List.map_cons, List.mem_cons]
      constructor
      · intro hk hc
        rcases hc with hc | hc
        · exact h hc.symm
        · exact hk hc
      · intro hk hc
        exact hk (Or.inr hc)

/-- Assigning a fresh key appends the entry. -/
theorem dictSet_of_not_mem {α : Type} (m : List (String × α)) (k : String) (v : α)
    (h : dictGet m k = Option.none) : dictSet m k v = m ++ [(k, v)] := by
  induction m with
  | nil => rfl
  | cons e rest ih =>
    by_cases he : e.1 = k
    · rw [dictGet, if_pos he] at h
      cases h
    · rw [dictGet, if_neg he] at h
      simp [dictSet, he, ih h]

/-- Lookup in a concatenation skips a prefix that lacks the key. -/
theorem dictGet_append_of_none {α : Type} (a b : List (String × α)) (k : String)
    (h : dictGet a k = Option.none) : dictGet (a ++ b) k = dictGet b k := by
  induction a with
  | nil => rfl
  | cons e rest ih =>
    by_cases he : e.1 = k
    · rw [dictGet, if_pos he] at h
      cases h
    · rw [dictGet, if_neg he] at h
      simpa [dictGet, he] using ih h

/-- Lookup in a concatenation stops at a prefix that has the key. -/
theorem dictGet_append_of_some {α : Type} (a b : List (String × α)) (k : String) (v : α)
    (h : dictGet a k = Option.some v) : dictGet (a ++ b) k = Option.some v := by
  induction a with
  | nil => cases h
  | cons e rest ih =>
    by_cases he : e.1 = k
    · rw [dictGet, if_pos he] at h
      simpa [dictGet, he] using h
    · rw [dictGet, if_neg he] at h
      simpa [dictGet, he] using ih h

/-- In a duplicate-free dictionary, membership determines the lookup. -/
theorem dictGet_of_mem_nodup {α : Type} (m : List (String × α))
    (hnd : (m.map Prod.fst).Nodup) :
    ∀ e, e ∈ m → dictGet m e.1 = Option.some e.2 := by
  induction m with
  | nil => intro e he; cases he
  | cons f rest ih =>
    intro e he
    simp only [List.map_cons, List.nodup_cons] at hnd
    rcases List.mem_cons.mp he with rfl | hmem
    · simp [dictGet]
    · have hne : f.1 ≠ e.1 := by
        intro hc
        exact hnd.1 (hc ▸ List.mem_map_of_mem Prod.fst hmem)
      simp [dictGet, hne, ih hnd.2 e hmem]

/-- Keys of an assignment result: either an old key or the assigned key. -/
theorem dictSet_keys_mem {α : Type} (m : List (String × α)) (k : String) (v : α) :
    ∀ x, x ∈ (dictSet m k v).map Prod.fst → x ∈ m.map Prod.fst ∨ x = k := by
  induction m with
  | nil => intro x hx; simpa [dictSet] using hx
  | cons e rest ih =>
    intro x hx
    by_cases he : e.1 = k
    · simp only [dictSet, if_pos he, List.map_cons, List.mem_cons] at hx ⊢
      tauto
    · simp only [dictSet, if_neg he, List.map_cons, List.mem_cons] at hx ⊢
      rcases hx with rfl | hx
      · tauto
      · rcases ih x hx with h | h <;> tauto

/-- Assignment preserves duplicate-freedom of the keys. -/
theorem dictSet_keys_nodup {α : Type} (m : List (String × α)) (k : String) (v : α)
    (hnd : (m.map Prod.fst).Nodup) : ((dictSet m k v).map Prod.fst).Nodup := by
  induction m with
  | nil => simp [dictSet]
  | cons e rest ih =>
    simp only [List.map_cons, List.nodup_cons] at hnd
    by_cases he : e.1 = k
    · simp only [dictSet, if_pos he, List.map_cons, List.nodup_cons]
      exact ⟨hnd.1, hnd.2⟩
    · simp only [dictSet, if_neg he, List.map_cons, List.nodup_cons]
      refine ⟨fun hc => ?_, ih hnd.2⟩
      rcases dictSet_keys_mem rest k v e.1 hc with h | h
      · exact hnd.1 h
      · exact he h

/-! ## Lemmas about the registry-builder loops -/

/-- `current_idx` advances once per processed entry. -/
theorem mfold_current (L : List (String × Nat)) : ∀ (st : MetaState),
    (L.foldl inheritStep st).current = st.current + (L.length : Int) := by
  induction L with
  | nil => intro st; simp
  | cons e rest ih =>
    intro st
    rw [List.foldl_cons, ih]
    show st.current + 1 + (rest.length : Int) = st.current + ((rest.length + 1 : Nat) : Int)
    push_cast
    ring

/-- The loops never change the number of descriptors in the store. -/
theorem mfold_store_length (L : List (String × Nat)) : ∀ (st : MetaState),
    (L.foldl inheritStep st).store.length = st.store.length := by
  induction L with
  | nil => intro st; rfl
  | cons e rest ih =>
    intro st
    rw [List.foldl_cons, ih]
    exact storeSetIdx_length st.store e.2 st.current

/-- Processing entries with fresh, pairwise-distinct names appends them to
`_PROPERTIES` in order. -/
theorem mfold_props (L : List (String × Nat)) : ∀ (st : MetaState),
    (∀ e ∈ L, dictGet st.props e.1 = Option.none) → (L.map Prod.fst).Nodup →
    (L.foldl inheritStep st).props = st.props ++ L := by
  induction L with
  | nil => intro st _ _; simp
  | cons e rest ih =>
    intro st hdisj hnd
    simp only [List.map_cons, List.nodup_cons] at hnd
    have hstep : (inheritStep st e).props = st.props ++ [e] := by
      simpa [inheritStep] using
        dictSet_of_not_mem st.props e.1 e.2 (hdisj e (List.mem_cons_self e rest))
    have hd : ∀ f ∈ rest, dictGet (inheritStep st e).props f.1 = Option.none := by
      intro f hf
      rw [hstep, dictGet_eq_none_iff, List.map_append, List.mem_append]
      rintro (hc | hc)
      · exact (dictGet_eq_none_iff st.props f.1).mp
          (hdisj f (List.mem_cons_of_mem e hf)) hc
      · simp only [List.map_cons, List.map_nil, List.mem_singleton] at hc
        exact hnd.1 (hc ▸ List.mem_map_of_mem Prod.fst hf)
    rw [List.foldl_cons, ih (inheritStep st e) hd hnd.2, hstep]
    simp

/-- A descriptor none of the processed entries reference is untouched. -/
theorem mfold_store_ne (L : List (String × Nat)) : ∀ (st : MetaState) (pid : Nat),
    (∀ e ∈ L, e.2 ≠ pid) →
    storeGet (L.foldl inheritStep st).store pid = storeGet st.store pid := by
  induction L with
  | nil => intro st pid _; rfl
  | cons e rest ih =>
    intro st pid h
    rw [List.foldl_cons, ih _ pid (fun f hf => h f (List.mem_cons_of_mem e hf))]
    exact storeGet_storeSetIdx_ne st.store e.2 pid st.current
      (fun hc => h e (List.mem_cons_self e rest) hc.symm)

/-- Each processed entry's descriptor ends with `idx` equal to the value of
`current_idx` at its turn (start value plus position), other fields kept. -/
theorem mfold_store_assigned (L : List (String × Nat)) : ∀ (st : MetaState),
    (L.map Prod.snd).Nodup → (∀ e ∈ L, e.2 < st.store.length) →
    ∀ (j : Nat) (hj : j < L.length),
      storeGet (L.foldl inheritStep st).store ((L.get ⟨j, hj⟩).2)
        = { storeGet st.store ((L.get ⟨j, hj⟩).2) with idx := st.current + (j : Int) } := by
  induction L with
  | nil => intro st _ _ j hj; cases hj
  | cons e rest ih =>
    intro st hnd hlt j hj
    simp only [List.map_cons, List.nodup_cons] at hnd
    cases j with
    | zero =>
      have hne : ∀ f ∈ rest, f.2 ≠ e.2 := by
        intro f hf hc
        exact hnd.1 (hc ▸ List.mem_map_of_mem Prod.snd hf)
      have hget0 : (e :: rest).get ⟨0, hj⟩ = e := rfl
      rw [List.foldl_cons, hget0, mfold_store_ne rest (inheritStep st e) e.2 hne]
      show storeGet (storeSetIdx st.store e.2 st.current) e.2 = _
      rw [storeGet_storeSetIdx_self st.store e.2 st.current
        (hlt e (List.mem_cons_self e rest))]
      simp
    | succ j2 =>
      have hj2 : j2 < rest.length := Nat.lt_of_succ_lt_succ hj
      have hlt2 : ∀ f ∈ rest, f.2 < (inheritStep st e).store.length := by
        intro f hf
        show f.2 < (storeSetIdx st.store e.2 st.current).length
        rw [storeSetIdx_length]
        exact hlt f (List.mem_cons_of_mem e hf)
      have hgetmem : rest.get ⟨j2, hj2⟩ ∈ rest := List.get_mem rest j2 hj2
      have hne : (rest.get ⟨j2, hj2⟩).2 ≠ e.2 := by
        intro hc
        exact hnd.1 (hc ▸ List.mem_map_of_mem Prod.snd hgetmem)
      have hsame : storeGet (inheritStep st e).store ((rest.get ⟨j2, hj2⟩).2)
          = storeGet st.store ((rest.get ⟨j2, hj2⟩).2) := by
        show storeGet (storeSetIdx st.store e.2 st.current) _ = _
        exact storeGet_storeSetIdx_ne st.store e.2 _ st.current hne
      have hcast : (inheritStep st e).current + (j2 : Int)
          = st.current + ((j2 + 1 : Nat) : Int) := by
        show st.current + 1 + (j2 : Int) = _
        push_cast
        ring
      have hget : (e :: rest).get ⟨j2 + 1, hj⟩ = rest.get ⟨j2, hj2⟩ := rfl
      rw [List.foldl_cons, hget, ih (inheritStep st e) hnd.2 hlt2 j2 hj2, hsame, hcast]

/-- Remove the entries whose key appears in `names` (used to state which newly
declared descriptors survive the inheritance loop's `attrs` overwrites). -/
def dropKeys (names : List String) : List (String × Nat) → List (String × Nat)
  | [] => []
  | e :: rest => if e.1 ∈ names then dropKeys names rest else e :: dropKeys names rest

/-- Keys of `sprops` come from the attribute dictionary. -/
theorem sprops_sub_keys (attrs : List (String × Attr)) :
    ∀ e ∈ sprops attrs, e.1 ∈ attrs.map Prod.fst := by
  induction attrs with
  | nil => intro e he; cases he
  | cons f rest ih =>
    intro e he
    obtain ⟨k0, a⟩ := f
    cases a with
    | sprop pid =>
      rcases List.mem_cons.mp he with rfl | hmem
      · exact List.mem_cons_self _ _
      · exact List.mem_cons_of_mem _ (ih e hmem)
    | accessor => exact List.mem_cons_of_mem _ (ih e he)

/-- Dropping names that never occur is the identity. -/
theorem dropKeys_of_disjoint (names : List String) :
    ∀ (l : List (String × Nat)), (∀ e ∈ l, e.1 ∉ names) → dropKeys names l = l := by
  intro l
  induction l with
  | nil => intro _; rfl
  | cons e rest ih =>
    intro h
    rw [dropKeys, if_neg (h e (List.mem_cons_self e rest)),
      ih (fun f hf => h f (List.mem_cons_of_mem e hf))]

/-- Successive drops accumulate. -/
theorem dropKeys_dropKeys (a b : List String) :
    ∀ (l : List (String × Nat)), dropKeys b (dropKeys a l) = dropKeys (a ++ b) l := by
  intro l
  induction l with
  | nil => rfl
  | cons e rest ih =>
    by_cases ha : e.1 ∈ a
    · rw [dropKeys, if_pos ha, ih, dropKeys, if_pos (List.mem_append_left b ha)]
    · by_cases hb : e.1 ∈ b
      · rw [dropKeys, if_neg ha, dropKeys, if_pos hb, ih, dropKeys,
          if_pos (List.mem_append_right a hb)]
      · have hab : e.1 ∉ a ++ b := by
          rw [List.mem_append]
          rintro (h | h)
          · exact ha h
          · exact hb h
        rw [dropKeys, if_neg ha, dropKeys, if_neg hb, ih, dropKeys, if_neg hab]

/-- Overwriting one key of a duplicate-free attribute dictionary with an
accessor removes exactly that key from its `StructureProperty` entries. -/
theorem sprops_dictSet_accessor (attrs : List (String × Attr)) (k : String)
    (hnd : (attrs.map Prod.fst).Nodup) :
    sprops (dictSet attrs k Attr.accessor) = dropKeys [k] (sprops attrs) := by
  induction attrs with
  | nil => rfl
  | cons f rest ih =>
    obtain ⟨k0, a⟩ := f
    simp only [List.map_cons, List.nodup_cons] at hnd
    by_cases he : k0 = k
    · subst he
      have hdisj : ∀ e ∈ sprops rest, e.1 ∉ [k0] := by
        intro e hee hc
        simp only [List.mem_singleton] at hc
        exact hnd.1 (hc ▸ sprops_sub_keys rest e hee)
      rw [dictSet, if_pos rfl]
      cases a with
      | sprop pid =>
        show sprops rest = dropKeys [k0] ((k0, pid) :: sprops rest)
        rw [dropKeys, if_pos (List.mem_singleton.mpr rfl), dropKeys_of_disjoint _ _ hdisj]
      | accessor =>
        show sprops rest = dropKeys [k0] (sprops rest)
        rw [dropKeys_of_disjoint _ _ hdisj]
    · rw [dictSet, if_neg he]
      cases a with
      | sprop pid =>
        show (k0, pid) :: sprops (dictSet rest k Attr.accessor)
            = dropKeys [k] ((k0, pid) :: sprops rest)
        have hk0 : (k0 : String) ∉ [k] := by
          simp only [List.mem_singleton]
          exact he
        rw [ih hnd.2, dropKeys, if_neg hk0]
      | accessor =>
        show sprops (dictSet rest k Attr.accessor) = dropKeys [k] (sprops rest)
        exact ih hnd.2

/-- The inheritance loop preserves duplicate-freedom of the attribute keys. -/
theorem mfold_attrs_nodup (L : List (String × Nat)) : ∀ (st : MetaState),
    (st.attrs.map Prod.fst).Nodup → (((L.foldl inheritStep st).attrs).map Prod.fst).Nodup := by
  induction L with
  | nil => intro st h; exact h
  | cons e rest ih =>
    intro st h
    rw [List.foldl_cons]
    exact ih (inheritStep st e) (dictSet_keys_nodup st.attrs e.1 Attr.accessor h)

/-- After the loop, the surviving newly declared descriptors are exactly the
original ones whose name is not among the processed names, in order. -/
theorem mfold_attrs_sprops (L : List (String × Nat)) : ∀ (st : MetaState),
    (st.attrs.map Prod.fst).Nodup →
    sprops ((L.foldl inheritStep st).attrs) = dropKeys (L.map Prod.fst) (sprops st.attrs) := by
  induction L with
  | nil =>
    intro st _
    exact (dropKeys_of_disjoint [] (sprops st.attrs) (fun e _ hc => by cases hc)).symm
  | cons e rest ih =>
    intro st hnd
    rw [List.foldl_cons,
      ih (inheritStep st e) (dictSet_keys_nodup st.attrs e.1 Attr.accessor hnd)]
    show dropKeys (rest.map Prod.fst) (sprops (dictSet st.attrs e.1 Attr.accessor)) = _
    rw [sprops_dictSet_accessor st.attrs e.1 hnd, dropKeys_dropKeys, List.map_cons]
    rfl

/-- The stable insertion produces a permutation. -/
theorem insertByIdx_perm (store : List StructureProperty) (e : String × Nat) :
    ∀ (l : List (String × Nat)), (insertByIdx store e l).Perm (e :: l) := by
  intro l
  induction l with
  | nil => exact List.Perm.refl _
  | cons f rest ih =>
    rw [insertByIdx]
    by_cases h : (storeGet store e.2).idx ≤ (storeGet store f.2).idx
    · rw [if_pos h]
    · rw [if_neg h]
      exact (ih.cons f).trans (List.Perm.swap e f rest)

/-- The stable sort produces a permutation. -/
theorem sortByIdx_perm (store : List StructureProperty) :
    ∀ (l : List (String × Nat)), (sortByIdx store l).Perm l := by
  intro l
  induction l with
  | nil => exact List.Perm.refl _
  | cons e rest ih =>
    exact (insertByIdx_perm store e (sortByIdx store rest)).trans (ih.cons e)

/-- Insertion only consults the store at the listed entries. -/
theorem insertByIdx_congr (s1 s2 : List StructureProperty) (e : String × Nat)
    (he : storeGet s1 e.2 = storeGet s2 e.2) :
    ∀ (l : List (String × Nat)), (∀ f ∈ l, storeGet s1 f.2 = storeGet s2 f.2) →
    insertByIdx s1 e l = insertByIdx s2 e l := by
  intro l
  induction l with
  | nil => intro _; rfl
  | cons f rest ih =>
    intro h
    rw [insertByIdx, insertByIdx, he, h f (List.mem_cons_self f rest)]
    by_cases hc : (storeGet s2 e.2).idx ≤ (storeGet s2 f.2).idx
    · rw [if_pos hc, if_pos hc]
    · rw [if_neg hc, if_neg hc, ih (fun g hg => h g (List.mem_cons_of_mem f hg))]

/-- Sorting only consults the store at the listed entries. -/
theorem sortByIdx_congr (s1 s2 : List StructureProperty) :
    ∀ (l : List (String × Nat)), (∀ f ∈ l, storeGet s1 f.2 = storeGet s2 f.2) →
    sortByIdx s1 l = sortByIdx s2 l := by
  intro l
  induction l with
  | nil => intro _; rfl
  | cons e rest ih =>
    intro h
    rw [sortByIdx, sortByIdx, ih (fun g hg => h g (List.mem_cons_of_mem e hg))]
    refine insertByIdx_congr s1 s2 e (h e (List.mem_cons_self e rest)) _ (fun f hf => ?_)
    exact h f (List.mem_cons_of_mem e ((sortByIdx_perm s2 rest).mem_iff.mp hf))

/-- Surviving entries of a drop come from the original list. -/
theorem dropKeys_sublist (names : List String) :
    ∀ (l : List (String × Nat)), (dropKeys names l).Sublist l := by
  intro l
  induction l with
  | nil => exact List.Sublist.refl _
  | cons e rest ih =>
    by_cases h : e.1 ∈ names
    · rw [dropKeys, if_pos h]
      exact ih.cons e
    · rw [dropKeys, if_neg h]
      exact ih.cons₂ e

/-- A surviving entry's key was not among the dropped names. -/
theorem dropKeys_keys_not_mem (names : List String) :
    ∀ (l : List (String × Nat)) (e : String × Nat), e ∈ dropKeys names l → e.1 ∉ names := by
  intro l
  induction l with
  | nil => intro e he; cases he
  | cons f rest ih =>
    intro e he
    by_cases h : f.1 ∈ names
    · rw [dropKeys, if_pos h] at he
      exact ih e he
    · rw [dropKeys, if_neg h] at he
      rcases List.mem_cons.mp he with rfl | hmem
      · exact h
      · exact ih e hmem

/-- The keys of the declared descriptors form a sublist of the attribute keys. -/
theorem sprops_keys_sublist (attrs : List (String × Attr)) :
    ((sprops attrs).map Prod.fst).Sublist (attrs.map Prod.fst) := by
  induction attrs with
  | nil => exact List.Sublist.refl _
  | cons f rest ih =>
    obtain ⟨k0, a⟩ := f
    cases a with
    | sprop pid => exact ih.cons₂ k0
    | accessor => exact ih.cons k0

/-- Indexing into the left part of a concatenation. -/
theorem get_append_left {α : Type} :
    ∀ (as bs : List α) (j : Nat) (h1 : j < as.length) (h2 : j < (as ++ bs).length),
    (as ++ bs).get ⟨j, h2⟩ = as.get ⟨j, h1⟩ := by
  intro as
  induction as with
  | nil => intro bs j h1 _; cases h1
  | cons a rest ih =>
    intro bs j h1 h2
    cases j with
    | zero => rfl
    | succ j2 =>
      exact ih bs j2 (Nat.lt_of_succ_lt_succ h1) (Nat.lt_of_succ_lt_succ h2)

/-- Indexing into the right part of a concatenation. -/
theorem get_append_right {α : Type} :
    ∀ (as bs : List α) (j : Nat) (h1 : j < bs.length)
      (h2 : as.length + j < (as ++ bs).length),
    (as ++ bs).get ⟨as.length + j, h2⟩ = bs.get ⟨j, h1⟩ := by
  intro as
  induction as with
  | nil => intro bs j h1 h2; simp
  | cons a rest ih =>
    intro bs j h1 h2
    have h2b : rest.length + j < (rest ++ bs).length := by
      simpa [List.length_append, Nat.succ_add] using h2
    have hstep : (a :: rest ++ bs).get ⟨(a :: rest).length + j, h2⟩
        = (rest ++ bs).get ⟨rest.length + j, h2b⟩ := by
      simp [List.length_cons, Nat.succ_add]
    rw [hstep, ih bs j h1 h2b]

/-- The registry order the amended claim describes (spec side): all inherited
entries in base order, followed by the surviving newly declared fields — those
whose name does not collide with an inherited name — sorted by their
author-assigned index. -/
def mergedRegistry (store0 : List StructureProperty)
    (bases : List (List (String × Nat))) (attrs0 : List (String × Attr)) :
    List (String × Nat) :=
  bases.flatten ++ sortByIdx store0 (dropKeys ((bases.flatten).map Prod.fst) (sprops attrs0))

/-- Characterization of `ParserMeta._create_class` (shared by the registry
claims), under the well-formedness hypotheses that inherited names are
pairwise distinct across the bases, that all descriptor objects involved are
distinct and live in the store, and that the class body's attribute keys are
distinct: the built registry equals `mergedRegistry`; every descriptor it
references ends with `idx` equal to its registry position (contiguous 0..N−1)
and its other fields unchanged; and every inherited name still maps to the
base descriptor (a colliding redeclaration in the class body is discarded, not
installed). -/
theorem create_class_spec (store0 : List StructureProperty)
    (bases : List (List (String × Nat))) (attrs0 : List (String × Attr))
    (H1 : ((bases.flatten).map Prod.fst).Nodup)
    (H2 : ((bases.flatten ++ sprops attrs0).map Prod.snd).Nodup)
    (H3 : ∀ e ∈ bases.flatten ++ sprops attrs0, e.2 < store0.length)
    (H4 : (attrs0.map Prod.fst).Nodup) :
    (create_class store0 bases attrs0).props = mergedRegistry store0 bases attrs0
    ∧ (∀ (j : Nat) (hj : j < (mergedRegistry store0 bases attrs0).length),
        storeGet (create_class store0 bases attrs0).store
            (((mergedRegistry store0 bases attrs0).get ⟨j, hj⟩).2)
          = { storeGet store0 (((mergedRegistry store0 bases attrs0).get ⟨j, hj⟩).2)
              with idx := (j : Int) })
    ∧ (∀ e ∈ bases.flatten,
        dictGet (create_class store0 bases attrs0).props e.1 = Option.some e.2) := by
  have hfold : (bases.flatten).foldl inheritStep ⟨store0, attrs0, [], 0⟩
      = bases.foldl (fun st base => base.foldl inheritStep st) ⟨store0, attrs0, [], 0⟩ :=
    List.foldl_flatten inheritStep ⟨store0, attrs0, [], 0⟩ bases
  have hcc : create_class store0 bases attrs0
      = (sortByIdx ((bases.flatten).foldl inheritStep ⟨store0, attrs0, [], 0⟩).store
          (sprops ((bases.flatten).foldl inheritStep ⟨store0, attrs0, [], 0⟩).attrs)).foldl
          inheritStep ((bases.flatten).foldl inheritStep ⟨store0, attrs0, [], 0⟩) := by
    simp only [create_class]
    rw [← hfold]
  set T1 := (bases.flatten).foldl inheritStep ⟨store0, attrs0, [], 0⟩ with hT1
  set newOnes := dropKeys ((bases.flatten).map Prod.fst) (sprops attrs0) with hnewOnes
  have hprops1 : T1.props = bases.flatten := by
    have h := mfold_props (bases.flatten) ⟨store0, attrs0, [], 0⟩ (fun e _ => rfl) H1
    simpa using h
  have hcur1 : T1.current = ((bases.flatten).length : Int) := by
    have h := mfold_current (bases.flatten) ⟨store0, attrs0, [], 0⟩
    simpa using h
  have hlen1 : T1.store.length = store0.length := mfold_store_length _ _
  have hsp1 : sprops T1.attrs = newOnes :=
    mfold_attrs_sprops (bases.flatten) ⟨store0, attrs0, [], 0⟩ H4
  have hnd2 := H2
  rw [List.map_append] at hnd2
  obtain ⟨hndInhP, hndNewP, hdisjP⟩ := List.nodup_append.mp hnd2
  have hnewsub : ∀ e ∈ newOnes, e ∈ sprops attrs0 :=
    fun e he => (dropKeys_sublist _ _).subset he
  have hpid_ne : ∀ f ∈ newOnes, ∀ e ∈ bases.flatten, e.2 ≠ f.2 := by
    intro f hf e he hc
    exact hdisjP (List.mem_map_of_mem Prod.snd he)
      (hc ▸ List.mem_map_of_mem Prod.snd (hnewsub f hf))
  have hstore1_new : ∀ f ∈ newOnes, storeGet T1.store f.2 = storeGet store0 f.2 := by
    intro f hf
    exact mfold_store_ne (bases.flatten) ⟨store0, attrs0, [], 0⟩ f.2
      (fun e he => hpid_ne f hf e he)
  have hsort : sortByIdx T1.store (sprops T1.attrs) = sortByIdx store0 newOnes := by
    rw [hsp1]
    exact sortByIdx_congr T1.store store0 newOnes hstore1_new
  set S := sortByIdx store0 newOnes with hS
  have hSperm : S.Perm newOnes := sortByIdx_perm store0 newOnes
  have hSmem : ∀ f ∈ S, f ∈ newOnes := fun f hf => hSperm.mem_iff.mp hf
  have hnewNamesNodup : (newOnes.map Prod.fst).Nodup := by
    have hsub : (newOnes.map Prod.fst).Sublist (attrs0.map Prod.fst) :=
      ((dropKeys_sublist _ _).map Prod.fst).trans (sprops_keys_sublist attrs0)
    exact H4.sublist hsub
  have hSNamesNodup : (S.map Prod.fst).Nodup :=
    ((hSperm.map Prod.fst).nodup_iff).mpr hnewNamesNodup
  have hnewPidsNodup : (newOnes.map Prod.snd).Nodup :=
    hndNewP.sublist ((dropKeys_sublist _ _).map Prod.snd)
  have hSPidsNodup : (S.map Prod.snd).Nodup :=
    ((hSperm.map Prod.snd).nodup_iff).mpr hnewPidsNodup
  have hSdisj : ∀ e ∈ S, dictGet T1.props e.1 = Option.none := by
    intro e he
    rw [hprops1, dictGet_eq_none_iff]
    exact dropKeys_keys_not_mem _ _ e (hSmem e he)
  have hltS : ∀ f ∈ S, f.2 < T1.store.length := by
    intro f hf
    rw [hlen1]
    exact H3 f (List.mem_append_right _ (hnewsub f (hSmem f hf)))
  have hpropsRes : ((S.foldl inheritStep T1).props) = bases.flatten ++ S := by
    rw [mfold_props S T1 hSdisj hSNamesNodup, hprops1]
  have hmerged : mergedRegistry store0 bases attrs0 = bases.flatten ++ S := by
    rw [mergedRegistry]
  refine ⟨?_, ?_, ?_⟩
  · rw [hcc, hsort, hpropsRes, hmerged]
  · intro j hj
    have hjlen : j < ((bases.flatten) ++ S).length := by
      rw [hmerged] at hj
      exact hj
    by_cases hcase : j < (bases.flatten).length
    · have hgete : (mergedRegistry store0 bases attrs0).get ⟨j, hj⟩
          = (bases.flatten).get ⟨j, hcase⟩ :=
        get_append_left (bases.flatten) S j hcase hj
      rw [hgete, hcc, hsort]
      have huntouched : storeGet ((S.foldl inheritStep T1).store)
          (((bases.flatten).get ⟨j, hcase⟩).2)
          = storeGet T1.store (((bases.flatten).get ⟨j, hcase⟩).2) :=
        mfold_store_ne S T1 _
          (fun f hf hc =>
            hpid_ne f (hSmem f hf) _ (List.get_mem _ j hcase) hc.symm)
      have hassigned : storeGet T1.store (((bases.flatten).get ⟨j, hcase⟩).2)
          = { storeGet store0 (((bases.flatten).get ⟨j, hcase⟩).2)
              with idx := 0 + (j : Int) } :=
        mfold_store_assigned (bases.flatten) ⟨store0, attrs0, [], 0⟩
          hndInhP (fun e he => H3 e (List.mem_append_left _ he)) j hcase
      rw [huntouched, hassigned]
      simp
    · push_neg at hcase
      have hj2 : j - (bases.flatten).length < S.length := by
        rw [List.length_append] at hjlen
        omega
      have h2b : (bases.flatten).length + (j - (bases.flatten).length)
          < ((bases.flatten) ++ S).length := by
        rw [List.length_append]
        omega
      have hgete : (mergedRegistry store0 bases attrs0).get ⟨j, hj⟩
          = S.get ⟨j - (bases.flatten).length, hj2⟩ := by
        show ((bases.flatten) ++ S).get ⟨j, hjlen⟩ = _
        rw [← get_append_right (bases.flatten) S (j - (bases.flatten).length) hj2 h2b]
        congr 1
        rw [Fin.mk_eq_mk]
        omega
      rw [hgete, hcc, hsort]
      have hassigned : storeGet ((S.foldl inheritStep T1).store)
          ((S.get ⟨j - (bases.flatten).length, hj2⟩).2)
          = { storeGet T1.store ((S.get ⟨j - (bases.flatten).length, hj2⟩).2)
              with idx := T1.current + ((j - (bases.flatten).length : Nat) : Int) } :=
        mfold_store_assigned S T1 hSPidsNodup hltS (j - (bases.flatten).length) hj2
      rw [hassigned,
        hstore1_new _ (hSmem _ (List.get_mem _ _ hj2)), hcur1]
      have hidx : ((bases.flatten).length : Int)
          + ((j - (bases.flatten).length : Nat) : Int) = (j : Int) := by
        omega
      rw [hidx]
  · intro e he
    rw [hcc, hsort, hpropsRes]
    exact dictGet_append_of_some _ _ _ _ (dictGet_of_mem_nodup (bases.flatten) H1 e he)

/-! ## Claim C1 — the merged registry -/

/-- C1 (amended): for every class hierarchy whose inherited field names are
pairwise distinct across the bases (the spec leaves conflicting bases
unspecified) and whose descriptors are distinct objects in the store, the
registry built at class-definition time lists all inherited fields first, in
their original relative order, followed by the class's newly declared fields
*whose names do not collide with an inherited name*, sorted by author-assigned
index; the final indices are reassigned contiguously 0..N−1 in that traversal
order (each descriptor keeping its other fields).  A subclass redeclaration of
an inherited name is DISCARDED — the inherited descriptor stays installed at
its base position (it is not replaced): the inheritance loop overwrites
`attrs[name]` with a `property` object before the newly declared descriptors
are collected, so the colliding `StructureProperty` never reaches the
registry. -/
theorem c1_registry_merge_order (store0 : List StructureProperty)
    (bases : List (List (String × Nat))) (attrs0 : List (String × Attr))
    (H1 : ((bases.flatten).map Prod.fst).Nodup)
    (H2 : ((bases.flatten ++ sprops attrs0).map Prod.snd).Nodup)
    (H3 : ∀ e ∈ bases.flatten ++ sprops attrs0, e.2 < store0.length)
    (H4 : (attrs0.map Prod.fst).Nodup) :
    (create_class store0 bases attrs0).props = mergedRegistry store0 bases attrs0
    ∧ (∀ (j : Nat) (hj : j < (mergedRegistry store0 bases attrs0).length),
        storeGet (create_class store0 bases attrs0).store
            (((mergedRegistry store0 bases attrs0).get ⟨j, hj⟩).2)
          = { storeGet store0 (((mergedRegistry store0 bases attrs0).get ⟨j, hj⟩).2)
              with idx := (j : Int) })
    ∧ (∀ e ∈ bases.flatten,
        dictGet (create_class store0 bases attrs0).props e.1 = Option.some e.2) :=
  create_class_spec store0 bases attrs0 H1 H2 H3 H4

/-- The base descriptor of field `x` (pid 0) and a subclass redeclaration of
`x` (pid 1) that differs in `deps` and `read_only`. -/
def storeOv : List StructureProperty :=
  [{ idx := 0, name := "x", deps := Option.none, read_only := false },
   { idx := 0, name := "x", deps := Option.some ["y"], read_only := true }]

/-- One base whose registry holds `x` at pid 0. -/
def basesOv : List (List (String × Nat)) := [[("x", 0)]]

/-- A class body redeclaring `x` with the descriptor at pid 1. -/
def attrsOv : List (String × Attr) := [("x", Attr.sprop 1)]

/-- C1 counterexample: the claim says a subclass redeclaration of an inherited
field name replaces its descriptor (keeping the position).  In fact the
registry still maps `x` to the base descriptor (pid 0, `read_only = false`,
no deps) and the redeclared descriptor (pid 1, `read_only = true`) is
discarded entirely: the inheritance loop stored a `property` object under
`attrs['x']`, so the second loop no longer sees the redeclaration. -/
theorem c1_override_descriptor_not_replaced :
    (create_class storeOv basesOv attrsOv).props = [("x", 0)]
    ∧ storeGet (create_class storeOv basesOv attrsOv).store 0
        = { idx := 0, name := "x", deps := Option.none, read_only := false }
    ∧ (storeGet (create_class storeOv basesOv attrsOv).store 0).read_only = false
    ∧ (storeGet storeOv 1).read_only = true :=
  ⟨rfl, rfl, rfl, rfl⟩

/-- A store for the C1 witness: inherited field `a`, new fields `b` (author
index 5) and `c` (author index 3). -/
def storeW : List StructureProperty :=
  [{ idx := 0, name := "a", deps := Option.none, read_only := false },
   { idx := 5, name := "b", deps := Option.none, read_only := false },
   { idx := 3, name := "c", deps := Option.none, read_only := false }]

/-- One base whose registry holds `a` at pid 0. -/
def basesW : List (List (String × Nat)) := [[("a", 0)]]

/-- A class body declaring `b` (pid 1) and `c` (pid 2), in that order. -/
def attrsW : List (String × Attr) := [("b", Attr.sprop 1), ("c", Attr.sprop 2)]

/-- Witness for the amended C1: merged registry `[a, c, b]` (author indices 3
< 5 reorder the new fields) with final indices 0, 1, 2. -/
theorem c1_registry_merge_order_witness :
    (((basesW.flatten).map Prod.fst).Nodup
      ∧ ((basesW.flatten ++ sprops attrsW).map Prod.snd).Nodup
      ∧ (∀ e ∈ basesW.flatten ++ sprops attrsW, e.2 < storeW.length)
      ∧ ((attrsW.map Prod.fst).Nodup)
      ∧ mergedRegistry storeW basesW attrsW = [("a", 0), ("c", 2), ("b", 1)])
    ∧ ((create_class storeW basesW attrsW).props = mergedRegistry storeW basesW attrsW
      ∧ (∀ (j : Nat) (hj : j < (mergedRegistry storeW basesW attrsW).length),
          storeGet (create_class storeW basesW attrsW).store
              (((mergedRegistry storeW basesW attrsW).get ⟨j, hj⟩).2)
            = { storeGet storeW (((mergedRegistry storeW basesW attrsW).get ⟨j, hj⟩).2)
                with idx := (j : Int) })
      ∧ (∀ e ∈ basesW.flatten,
          dictGet (create_class storeW basesW attrsW).props e.1 = Option.some e.2)) :=
  ⟨⟨by decide, by decide, by decide, by decide, by decide⟩,
    c1_registry_merge_order storeW basesW attrsW
      (by decide) (by decide) (by decide) (by decide)⟩

/-! ## Claim C9 — immutability of base registries -/

/-- Two single-field bases whose descriptors both carry idx 0 (each base
registry is contiguous from 0 on its own). -/
def storeTwo : List StructureProperty :=
  [{ idx := 0, name := "a", deps := Option.none, read_only := false },
   { idx := 0, name := "b", deps := Option.none, read_only := false }]

/-- C9 counterexample: defining `class C(A, B)` with bases `A = {a: pid 0}`
and `B = {b: pid 1}` mutates base `B`'s registry: the descriptor objects are
shared, and the merge loop assigns `idx = 1` in place to `B`'s descriptor,
which previously carried `idx = 0` — so the base registry's index values are
not left exactly as they were. -/
theorem c9_second_base_descriptor_mutated :
    (storeGet storeTwo 1).idx = 0
    ∧ (storeGet (create_class storeTwo [[("a", 0)], [("b", 1)]] []).store 1).idx = 1
    ∧ ((1 : Int) ≠ (0 : Int)) :=
  ⟨rfl, rfl, by decide⟩

/-- C9 (amended): a class's registry mapping (names, order, descriptor
references) is built once at class-definition time, and defining a subclass
does not alter any base's name-to-descriptor mapping or its order; the
descriptor *objects*, however, are shared, and the subclass build reassigns
their `idx` in place to their position in the subclass traversal.  For the
first base — whose fields occupy the same leading positions in the subclass
traversal — an already contiguous registry (idx = position, as the builder
itself produces) is left with every descriptor exactly as it was; a later
base's descriptors can change (see the counterexample). -/
theorem c9_first_base_descriptors_preserved (store0 : List StructureProperty)
    (base1 : List (String × Nat)) (restBases : List (List (String × Nat)))
    (attrs0 : List (String × Attr))
    (H1 : (((base1 :: restBases).flatten).map Prod.fst).Nodup)
    (H2 : (((base1 :: restBases).flatten ++ sprops attrs0).map Prod.snd).Nodup)
    (H3 : ∀ e ∈ (base1 :: restBases).flatten ++ sprops attrs0, e.2 < store0.length)
    (H4 : (attrs0.map Prod.fst).Nodup)
    (hcontig : ∀ (j : Nat) (hj : j < base1.length),
        (storeGet store0 ((base1.get ⟨j, hj⟩).2)).idx = (j : Int)) :
    ∀ (j : Nat) (hj : j < base1.length),
      storeGet (create_class store0 (base1 :: restBases) attrs0).store
          ((base1.get ⟨j, hj⟩).2)
        = storeGet store0 ((base1.get ⟨j, hj⟩).2) := by
  intro j hj
  obtain ⟨-, h2, -⟩ := create_class_spec store0 (base1 :: restBases) attrs0 H1 H2 H3 H4
  have hjf : j < (((base1 :: restBases).flatten)).length := by
    rw [List.flatten_cons, List.length_append]
    omega
  have hjm : j < (mergedRegistry store0 (base1 :: restBases) attrs0).length := by
    rw [mergedRegistry, List.length_append]
    omega
  have hg1 : (mergedRegistry store0 (base1 :: restBases) attrs0).get ⟨j, hjm⟩
      = ((base1 :: restBases).flatten).get ⟨j, hjf⟩ :=
    get_append_left ((base1 :: restBases).flatten) _ j hjf hjm
  have hg2 : ((base1 :: restBases).flatten).get ⟨j, hjf⟩ = base1.get ⟨j, hj⟩ :=
    get_append_left base1 (restBases.flatten) j hj hjf
  have hpos := h2 j hjm
  rw [hg1, hg2] at hpos
  rw [hpos, ← hcontig j hj]

/-- Witness for the amended C9: with base `[a]` (contiguous) and new fields
`b`, `c`, the base's descriptor is untouched by the subclass definition. -/
theorem c9_first_base_descriptors_preserved_witness :
    ((((([("a", 0)] : List (String × Nat)) :: ([] : List (List (String × Nat)))).flatten).map
        Prod.fst).Nodup
      ∧ (∀ (j : Nat) (hj : j < ([("a", 0)] : List (String × Nat)).length),
          (storeGet storeW ((([("a", 0)] : List (String × Nat)).get ⟨j, hj⟩).2)).idx
            = (j : Int)))
    ∧ (∀ (j : Nat) (hj : j < ([("a", 0)] : List (String × Nat)).length),
        storeGet (create_class storeW ([("a", 0)] :: []) attrsW).store
            ((([("a", 0)] : List (String × Nat)).get ⟨j, hj⟩).2)
          = storeGet storeW ((([("a", 0)] : List (String × Nat)).get ⟨j, hj⟩).2)) :=
  ⟨⟨by decide, by decide⟩,
    c9_first_base_descriptors_preserved storeW [("a", 0)] [] attrsW
      (by decide) (by decide) (by decide) (by decide) (by decide)⟩
